import Mathlib

set_option maxRecDepth 100000
set_option maxHeartbeats 1000000

/-!
Verification development for the group_chat_orchestrator repository.

The Python sources (`text_processing.py`, `prompts.py`, `run.py`, `utils.py`)
are shallowly embedded below.  Python runtime values are modelled by `PyVal`,
Python exceptions by `PyErr` (carried in `Except`), and each function of the
repository is translated into a Lean function of the same name (snake_case
becomes camelCase).  External collaborators (agents, knowledge store,
inference client, `json.loads`) are supplied as explicit inputs.

Modelling notes, applying to the whole file:
* `json.loads` is an input (`loads : String → Except Unit PyVal`); its error
  case stands for `json.JSONDecodeError`.  No theorem depends on the content
  of a successfully decoded payload beyond what is passed in explicitly.
* Python `str` is modelled by `String` (sequences of unicode scalar values,
  matching well-formed Python strings).
* `re` character classes `\w` and the `.lower()` / `.isdigit()` methods are
  modelled exactly on the Latin range and under-approximated above it
  (treated as non-word / unchanged); every theorem below evaluates them on
  Latin-range text only.
* the `unicode_escape` codec is modelled byte-exactly for all escape forms
  except `\N{...}` named escapes and escapes denoting lone surrogates, which
  are mapped to a decode error (no theorem touches such inputs).
-/

namespace GroupChat

/-- Model of a Python runtime value (the JSON-able fragment used by the
repository: `None`, `bool`, `int`, `str`, `list`, `dict` with string keys). -/
inductive PyVal where
  | none
  | bool (b : Bool)
  | int (n : Int)
  | str (s : String)
  | list (xs : List PyVal)
  | dict (kvs : List (String × PyVal))

/-- Model of the Python exception classes raised by the embedded code. -/
inductive PyErr where
  | attributeError
  | indexError
  | keyError
  | typeError
  | valueError
  | nameError
  | runtimeError
deriving DecidableEq, Repr

/-- Rendering of `str(e)` for an exception, used by the orchestrator's
error records.  Only the presence of a message matters to the claims. -/
def pyErrMsg : PyErr → String
  | .attributeError => "AttributeError"
  | .indexError => "IndexError"
  | .keyError => "KeyError"
  | .typeError => "TypeError"
  | .valueError => "ValueError"
  | .nameError => "NameError"
  | .runtimeError => "RuntimeError"

/-! ## Character classes of the Python `re` module and `str` methods -/

/-- Characters matched by `\s` in Python `re` on `str` (whitespace). -/
def pyIsSpace (c : Char) : Bool :=
  let v := c.toNat
  (0x09 ≤ v && v ≤ 0x0D) || v == 0x20 || (0x1C ≤ v && v ≤ 0x1F) ||
  v == 0x85 || v == 0xA0 || v == 0x1680 || (0x2000 ≤ v && v ≤ 0x200A) ||
  v == 0x2028 || v == 0x2029 || v == 0x202F || v == 0x205F || v == 0x3000

/-- Characters matched by `\w` in Python `re` on `str`; exact on the Latin-1
range, under-approximated (false) above it. -/
def pyIsWordChar (c : Char) : Bool :=
  let v := c.toNat
  c.isAlphanum || c == '_' ||
  v == 0xAA || v == 0xB2 || v == 0xB3 || v == 0xB5 || v == 0xB9 || v == 0xBA ||
  (0xBC ≤ v && v ≤ 0xBE) ||
  (0xC0 ≤ v && v ≤ 0xFF && v != 0xD7 && v != 0xF7)

/-- ASCII lowering, modelling `str.lower()` (exact on ASCII; identity above,
an under-approximation never exercised by the theorems). -/
def pyLowerChar (c : Char) : Char :=
  if 'A' ≤ c && c ≤ 'Z' then Char.ofNat (c.toNat + 32) else c

def pyLower (s : String) : String :=
  ⟨s.data.map pyLowerChar⟩

/-! ## UTF-8 encoding (model of `str.encode('utf-8')`) -/

/-- UTF-8 bytes of one unicode scalar value. -/
def utf8Char (c : Char) : List Nat :=
  let v := c.toNat
  if v < 0x80 then [v]
  else if v < 0x800 then [0xC0 + v / 64, 0x80 + v % 64]
  else if v < 0x10000 then
    [0xE0 + v / 4096, 0x80 + (v / 64) % 64, 0x80 + v % 64]
  else
    [0xF0 + v / 262144, 0x80 + (v / 4096) % 64, 0x80 + (v / 64) % 64, 0x80 + v % 64]

def utf8Encode (s : String) : List Nat :=
  (s.data.map utf8Char).flatten

/-! ## The `unicode_escape` codec (model of `bytes.decode('unicode_escape')`) -/

def hexDigitVal (b : Nat) : Option Nat :=
  if 0x30 ≤ b && b ≤ 0x39 then some (b - 0x30)
  else if 0x41 ≤ b && b ≤ 0x46 then some (b - 0x41 + 10)
  else if 0x61 ≤ b && b ≤ 0x66 then some (b - 0x61 + 10)
  else Option.none

/-- The value of exactly `n` hex digits at the head of `l`, if present. -/
def takeHexVal : Nat → List Nat → Option Nat
  | 0, _ => some 0
  | _ + 1, [] => Option.none
  | n + 1, b :: rest =>
    match hexDigitVal b, takeHexVal n rest with
    | some d, some v => some (d * 16 ^ n + v)
    | _, _ => Option.none

def isOctalDigit (b : Nat) : Bool := 0x30 ≤ b && b ≤ 0x37

/-- The up-to-two further octal digits greedily consumed after a first
octal digit. -/
def octalExtra (l : List Nat) : List Nat :=
  (l.takeWhile isOctalDigit).take 2

/-- Octal value accumulated over the consumed extra digits. -/
def octalVal (v0 : Nat) (l : List Nat) : Nat :=
  (octalExtra l).foldl (fun a b => a * 8 + (b - 0x30)) v0

/-- Is `v` a unicode scalar value (valid `Char`)? Lone surrogates, legal in
Python `str`, are outside the model and decode to an error. -/
def isScalar (v : Nat) : Bool := v < 0xD800 || (0xE000 ≤ v && v < 0x110000)

/-- Decode of the `unicode_escape` codec, structured with explicit fuel
(the wrapper below supplies the byte count, which always suffices since
every step consumes at least one byte).  Non-escape bytes are read as
Latin-1.  Errors model `UnicodeDecodeError`. -/
def decodeUEFuel : Nat → List Nat → Except Unit (List Char)
  | _, [] => .ok []
  | 0, _ :: _ => .error ()    -- out of fuel: unreachable from the wrapper
  | fuel + 1, b :: rest =>
    if b = 92 then
      match rest with
      | [] => .error ()    -- lone trailing backslash
      | e :: rest' =>
        if e = 0x0A then decodeUEFuel fuel rest'          -- line continuation
        else if e = 92 then (('\\' : Char) :: ·) <$> decodeUEFuel fuel rest'
        else if e = 0x27 then (('\'' : Char) :: ·) <$> decodeUEFuel fuel rest'
        else if e = 0x22 then (('"' : Char) :: ·) <$> decodeUEFuel fuel rest'
        else if e = 0x61 then ((Char.ofNat 0x07) :: ·) <$> decodeUEFuel fuel rest'
        else if e = 0x62 then ((Char.ofNat 0x08) :: ·) <$> decodeUEFuel fuel rest'
        else if e = 0x66 then ((Char.ofNat 0x0C) :: ·) <$> decodeUEFuel fuel rest'
        else if e = 0x6E then (('\n' : Char) :: ·) <$> decodeUEFuel fuel rest'
        else if e = 0x72 then ((Char.ofNat 0x0D) :: ·) <$> decodeUEFuel fuel rest'
        else if e = 0x74 then (('\t' : Char) :: ·) <$> decodeUEFuel fuel rest'
        else if e = 0x76 then ((Char.ofNat 0x0B) :: ·) <$> decodeUEFuel fuel rest'
        else if isOctalDigit e then
          ((Char.ofNat (octalVal (e - 0x30) rest')) :: ·) <$>
            decodeUEFuel fuel (rest'.drop (octalExtra rest').length)
        else if e = 0x78 then    -- \xhh
          match takeHexVal 2 rest' with
          | some v => ((Char.ofNat v) :: ·) <$> decodeUEFuel fuel (rest'.drop 2)
          | Option.none => .error ()
        else if e = 0x75 then    -- \uhhhh
          match takeHexVal 4 rest' with
          | some v =>
            if isScalar v then ((Char.ofNat v) :: ·) <$> decodeUEFuel fuel (rest'.drop 4)
            else .error ()
          | Option.none => .error ()
        else if e = 0x55 then    -- \Uhhhhhhhh
          match takeHexVal 8 rest' with
          | some v =>
            if isScalar v then ((Char.ofNat v) :: ·) <$> decodeUEFuel fuel (rest'.drop 8)
            else .error ()
          | Option.none => .error ()
        else if e = 0x4E then .error ()    -- \N{name}: outside the model
        else    -- unknown escape: keep the backslash and the byte
          (fun cs => ('\\' : Char) :: Char.ofNat e :: cs) <$> decodeUEFuel fuel rest'
    else
      (Char.ofNat b :: ·) <$> decodeUEFuel fuel rest

def unicodeEscapeDecode (l : List Nat) : Except Unit (List Char) :=
  decodeUEFuel l.length l

/-! ## Regex substitutions and `str.strip` used by `clean_text` -/

mutual

/-- Model of `re.sub(r'\s+', ' ', text)`: replace each maximal whitespace
run by a single space (`skipRun` consumes the remainder of a run). -/
def collapseWs : List Char → List Char
  | [] => []
  | c :: rest =>
    if pyIsSpace c then ' ' :: skipRun rest
    else c :: collapseWs rest

def skipRun : List Char → List Char
  | [] => []
  | d :: t =>
    if pyIsSpace d then skipRun t
    else d :: collapseWs t

end

/-- Characters kept by `re.sub(r'[^\w\s.,!?-]', '', text)`. -/
def keptChar (c : Char) : Bool :=
  pyIsWordChar c || pyIsSpace c || c == '.' || c == ',' || c == '!' || c == '?' || c == '-'

/-- Model of `str.strip()` (default whitespace strip on both ends). -/
def pyStripChars (l : List Char) : List Char :=
  ((l.dropWhile pyIsSpace).reverse.dropWhile pyIsSpace).reverse

def pyStrip (s : String) : String :=
  ⟨pyStripChars s.data⟩

/-- Model of `str.lstrip(cs)`: drop leading characters belonging to `cs`. -/
def pyLStrip (cs : List Char) (s : String) : String :=
  ⟨s.data.dropWhile (fun c => cs.contains c)⟩

/-- `clean_text` (`text_processing.py` lines 12-21): decode escape
sequences via utf-8 + `unicode_escape`, collapse whitespace runs, delete
characters outside `[\w\s.,!?-]`, and strip.  The error case models the
`UnicodeDecodeError` that `decode('unicode_escape')` raises on malformed
escapes; `if not text` returns `""` for the empty string. -/
def cleanText (text : String) : Except PyErr String :=
  if text = "" then .ok ""
  else
    match unicodeEscapeDecode (utf8Encode text) with
    | .error _ => .error .valueError
    | .ok cs => .ok ⟨pyStripChars ((collapseWs cs).filter keptChar)⟩

/-! ## Generic Python operations on `PyVal` -/

/-- Python truthiness (`bool(v)`). -/
def pyTruthy : PyVal → Bool
  | .none => false
  | .bool b => b
  | .int n => n != 0
  | .str s => s != ""
  | .list xs => !xs.isEmpty
  | .dict kvs => !kvs.isEmpty

/-- First-match association lookup (Python dicts have unique keys). -/
def lookupKey (kvs : List (String × PyVal)) (k : String) : Option PyVal :=
  match kvs.find? (fun kv => kv.1 == k) with
  | some kv => some kv.2
  | Option.none => Option.none

/-- `v.get(k, d)`: a method of `dict`; on any other value the attribute
access raises `AttributeError`. -/
def pyDictGet (v : PyVal) (k : String) (d : PyVal) : Except PyErr PyVal :=
  match v with
  | .dict kvs =>
    match lookupKey kvs k with
    | some w => .ok w
    | Option.none => .ok d
  | _ => .error .attributeError

/-- `v[key]` subscription: dicts by string key (`KeyError` when missing,
also for non-string keys), lists by integer index (negative counts from
the end, `IndexError` out of range), `TypeError` otherwise. -/
def pyGetItem (v : PyVal) (key : PyVal) : Except PyErr PyVal :=
  match v, key with
  | .dict kvs, .str k =>
    match lookupKey kvs k with
    | some w => .ok w
    | Option.none => .error .keyError
  | .dict _, _ => .error .keyError
  | .list xs, .int i =>
    let j : Int := if i < 0 then i + xs.length else i
    if h : 0 ≤ j ∧ j.toNat < xs.length then .ok (xs.get ⟨j.toNat, h.2⟩)
    else .error .indexError
  | .list _, _ => .error .typeError
  | _, _ => .error .typeError

/-- `v[k] = w` on a dict replaces in place or appends a fresh key at the
end; on any other value it raises `TypeError`. -/
def pySetItem (v : PyVal) (k : String) (w : PyVal) : Except PyErr PyVal :=
  match v with
  | .dict kvs =>
    if kvs.any (fun kv => kv.1 == k) then
      .ok (.dict (kvs.map (fun kv => if kv.1 == k then (kv.1, w) else kv)))
    else .ok (.dict (kvs ++ [(k, w)]))
  | _ => .error .typeError

/-- `iter(v)`: lists yield elements, strings yield 1-character strings,
dicts yield keys; other values raise `TypeError`. -/
def pyIter (v : PyVal) : Except PyErr (List PyVal) :=
  match v with
  | .list xs => .ok xs
  | .str s => .ok (s.data.map (fun c => .str ⟨[c]⟩))
  | .dict kvs => .ok (kvs.map (fun kv => .str kv.1))
  | _ => .error .typeError

/-- `len(v)` for sized values, `TypeError` otherwise. -/
def pyLen (v : PyVal) : Except PyErr Nat :=
  match v with
  | .list xs => .ok xs.length
  | .str s => .ok s.data.length
  | .dict kvs => .ok kvs.length
  | _ => .error .typeError

/-- Is `p` a prefix of `l` (by `==` on characters)? -/
def startsList (p l : List Char) : Bool :=
  match p, l with
  | [], _ => true
  | _ :: _, [] => false
  | a :: p', b :: l' => a == b && startsList p' l'

/-- Is `n` a contiguous sublist of `h`? -/
def containsSubList (n h : List Char) : Bool :=
  startsList n h ||
    match h with
    | [] => false
    | _ :: t => containsSubList n t

/-- Python `in` for strings: substring containment. -/
def strIn (needle hay : String) : Bool :=
  containsSubList needle.data hay.data

mutual

/-- Python `==` (`pyEq`): numeric cross-comparison between `bool` and
`int` (as in CPython, `True == 1`), elementwise on lists, key-based and
order-insensitive on dicts. -/
def pyEq : PyVal → PyVal → Bool
  | .none, .none => true
  | .bool x, .bool y => x == y
  | .int x, .int y => x == y
  | .bool x, .int y => (if x then (1 : Int) else 0) == y
  | .int x, .bool y => x == (if y then (1 : Int) else 0)
  | .str x, .str y => x == y
  | .list xs, .list ys => pyEqList xs ys
  | .dict xs, .dict ys => xs.length == ys.length && pyEqKVs xs ys
  | _, _ => false

def pyEqList : List PyVal → List PyVal → Bool
  | [], [] => true
  | x :: xs, y :: ys => pyEq x y && pyEqList xs ys
  | _, _ => false

def pyEqKVs : List (String × PyVal) → List (String × PyVal) → Bool
  | [], _ => true
  | (k, v) :: rest, ys =>
    (match lookupKey ys k with
     | some w => pyEq v w
     | Option.none => false) &&
    pyEqKVs rest ys

end

/-- `k in v` membership: key test on dicts, `==` scan on lists, substring
test on strings (the repository only tests string membership), `TypeError`
on other values. -/
def pyContains (v : PyVal) (k : String) : Except PyErr Bool :=
  match v with
  | .dict kvs => .ok (kvs.any (fun kv => kv.1 == k))
  | .list xs => .ok (xs.any (fun x => pyEq x (.str k)))
  | .str s => .ok (strIn k s)
  | _ => .error .typeError

/-- `str(v)` rendering (`pyStr`), as produced by CPython for the modelled
fragment; container rendering follows `repr`. -/
def pyReprStrChar (c : Char) : String :=
  if c = '\\' then "\\\\"
  else if c = '\'' then "\\'"
  else if c = '\n' then "\\n"
  else if c = '\r' then "\\r"
  else if c = '\t' then "\\t"
  else if c.toNat < 32 || c.toNat == 127 then
    "\\x" ++ ⟨[(Nat.digitChar (c.toNat / 16))]⟩ ++ ⟨[(Nat.digitChar (c.toNat % 16))]⟩
  else ⟨[c]⟩

mutual

def pyRepr (v : PyVal) : String :=
  match v with
  | .none => "None"
  | .bool b => if b then "True" else "False"
  | .int n => toString n
  | .str s => "'" ++ String.join (s.data.map pyReprStrChar) ++ "'"
  | .list xs => "[" ++ String.intercalate ", " (pyReprList xs) ++ "]"
  | .dict kvs => "dict(" ++ String.intercalate ", " (pyReprKVs kvs) ++ ")"

def pyReprList : List PyVal → List String
  | [] => []
  | x :: xs => pyRepr x :: pyReprList xs

def pyReprKVs : List (String × PyVal) → List String
  | [] => []
  | (k, w) :: kvs => (pyRepr (.str k) ++ ": " ++ pyRepr w) :: pyReprKVs kvs

end

def pyStr (v : PyVal) : String :=
  match v with
  | .str s => s
  | _ => pyRepr v

/-- `clean_text` applied to an arbitrary value, as Python duck-typing does:
falsy non-strings return `""` through `if not text`, truthy non-strings
raise `AttributeError` at `text.encode`. -/
def cleanTextPy (v : PyVal) : Except PyErr String :=
  match v with
  | .str s => cleanText s
  | v => if pyTruthy v then .error .attributeError else .ok ""

/-! ## `process_agent_response` (`text_processing.py` lines 215-332) -/

/-- State of the line-scanning loop: current section, its points so far,
and the completed sections. -/
structure ScanState where
  cur : Option String
  pts : List String
  acc : List (String × List String)

/-- The fixed heading-marker set of the scanning loop (line 235). -/
def headingMarkers : List String :=
  ["Section:", "Findings for:", "###", "#", "**",
   "1.", "2.", "3.", "4.", "5.", "6.", "7.", "8.", "9.", "10."]

/-- The markers stripped from a heading line (line 245). -/
def stripMarkerList : List String :=
  ["Section:", "Findings for:", "###", "#", "**"]

def strStarts (p s : String) : Bool := startsList p.data s.data

def strDropLen (n : Nat) (s : String) : String := ⟨s.data.drop n⟩

/-- The marker-stripping loop: each marker, in order, is removed at most
once if the current text starts with it, followed by a `strip()`. -/
def stripHeadingMarkers (s : String) : String :=
  stripMarkerList.foldl
    (fun cur p => if strStarts p cur then pyStrip (strDropLen p.data.length cur) else cur) s

/-- The suffix after the first occurrence of `sep` (callers guarantee the
occurrence exists, mirroring `split(sep, 1)[1]`). -/
def dropThroughSep (sep : List Char) : List Char → List Char
  | [] => []
  | c :: t => if startsList sep (c :: t) then (c :: t).drop sep.length else dropThroughSep sep t

/-- Lines 248-249: `current_section[0].isdigit()` raises `IndexError` on an
empty heading; a leading digit with `'. '` present drops the numeric label. -/
def headingFix (s : String) : Except PyErr String :=
  match s.data with
  | [] => .error .indexError
  | c :: _ =>
    if c.isDigit && strIn ". " s then .ok ⟨dropThroughSep ". ".data s.data⟩
    else .ok s

/-- Python truthiness of `current_section` (`None` and `""` are falsy). -/
def curTruthy : Option String → Bool
  | some c => c != ""
  | Option.none => false

/-- One iteration of the scanning loop (lines 230-259). -/
def scanStep (st : ScanState) (line0 : String) : Except PyErr ScanState :=
  let line := pyStrip line0
  if line == "" then .ok st
  else if headingMarkers.any (fun p => strStarts p line) then
    let acc := if curTruthy st.cur && !st.pts.isEmpty
      then st.acc ++ [(st.cur.getD "", st.pts)] else st.acc
    match headingFix (stripHeadingMarkers line) with
    | .error e => .error e
    | .ok c2 => .ok ⟨some c2, [], acc⟩
  else if strStarts "-" line || strStarts "*" line then
    let point := pyStrip (pyLStrip ['-', '*', ' '] line)
    if point != "" && curTruthy st.cur then .ok { st with pts := st.pts ++ [point] }
    else .ok st
  else if curTruthy st.cur then .ok { st with pts := st.pts ++ [line] }
  else .ok { cur := some line, pts := [], acc := st.acc }

def scanFold (lines : List String) : Except PyErr ScanState :=
  lines.foldlM scanStep ⟨Option.none, [], []⟩

/-- The final flush (lines 261-265). -/
def flushScan (st : ScanState) : List (String × List String) :=
  if curTruthy st.cur && !st.pts.isEmpty then st.acc ++ [(st.cur.getD "", st.pts)]
  else st.acc

/-- The sections produced by the scanning loop over flat-text findings. -/
def scannedSections (lines : List String) : Except PyErr (List (String × List String)) :=
  (fun st => flushScan st) <$> scanFold lines

/-- `str.split()` with no argument: split on whitespace runs, no empties. -/
def pySplitWsAux (cur : List Char) : List Char → List String
  | [] => if cur.isEmpty then [] else [⟨cur.reverse⟩]
  | c :: t =>
    if pyIsSpace c then
      if cur.isEmpty then pySplitWsAux [] t else ⟨cur.reverse⟩ :: pySplitWsAux [] t
    else pySplitWsAux (c :: cur) t

def pySplitWs (s : String) : List String := pySplitWsAux [] s.data

/-- The Fallback-A relevance test (line 271): the whole question as a
case-insensitive substring of the line, or any word of the question as a
substring of the line. -/
def overlapQF (q f : String) : Bool :=
  strIn (pyLower q) (pyLower f) ||
    (pySplitWs (pyLower q)).any (fun w => strIn w (pyLower f))

/-- Fallback A (lines 267-277): group flat lines under a synthetic section
per question; a non-string question raises `AttributeError` at `.lower()`. -/
def fallbackGrouping (qta : PyVal) (lines : List String) :
    Except PyErr (List (String × List String)) := do
  let qs ← pyIter qta
  qs.foldlM (fun acc q =>
    match q with
    | .str question =>
      let rel := lines.filter (fun f => overlapQF question f)
      pure (if rel.isEmpty then acc else acc ++ [("Findings for: " ++ question, rel)])
    | _ => .error .attributeError) []

/-- The whole flat-text structuring pass: scan, Fallback A, Fallback B. -/
def structureStrFindings (qta : PyVal) (lines : List String) :
    Except PyErr (List (String × List String)) := do
  let structured ← scannedSections lines
  let structured ←
    if structured.isEmpty && pyTruthy qta then fallbackGrouping qta lines
    else pure structured
  pure (if structured.isEmpty then [("Key Findings", lines)] else structured)

/-- The well-formed record `process_agent_response` returns: findings as
cleaned `(section, points)` rows, cleaned questions, the (possibly
role-tagged) metadata, and the raw `questions_to_answer` value. -/
structure AgentRecord where
  findings : List (String × List String)
  questions : List String
  metadata : PyVal
  questions_to_answer : PyVal

def isStrVal : PyVal → Bool
  | .str _ => true
  | _ => false

def isDictVal : PyVal → Bool
  | .dict _ => true
  | _ => false

def strOf : PyVal → String
  | .str s => s
  | _ => ""

/-- Backfill for a findings row already given as a mapping (lines 287-292):
missing `section` becomes "Key Findings"; missing `points` becomes
`[str(content)]` when a `content` key exists, else `[]`. -/
def backfillDictFinding (f : PyVal) : PyVal :=
  match f with
  | .dict kvs =>
    let kvs1 := if kvs.any (fun kv => kv.1 == "section") then kvs
      else kvs ++ [("section", PyVal.str "Key Findings")]
    let kvs2 := if kvs1.any (fun kv => kv.1 == "points") then kvs1
      else match lookupKey kvs1 "content" with
        | some c => kvs1 ++ [("points", PyVal.list [PyVal.str (pyStr c)])]
        | Option.none => kvs1 ++ [("points", PyVal.list [])]
    .dict kvs2
  | f => f

/-- Post-processing of one findings row (lines 298-307): clean section and
points, drop empty points, drop the row if no points remain; non-mapping
rows are skipped. -/
def cleanFinding (f : PyVal) : Except PyErr (Option (String × List String)) :=
  match f with
  | .dict _ => do
    let secv ← pyDictGet f "section" (.str "")
    let sec ← cleanTextPy secv
    let ptsv ← pyDictGet f "points" (.list [])
    let pts0 ← pyIter ptsv
    let pts1 ← pts0.mapM cleanTextPy
    let pts := pts1.filter (fun p => pyStrip p != "")
    pure (if pts.isEmpty then Option.none else some (sec, pts))
  | _ => pure Option.none

/-- Post-processing of the questions (lines 309-310). -/
def cleanQuestions (qv : PyVal) : Except PyErr (List String) := do
  let qs ← pyIter qv
  let cq ← qs.mapM cleanTextPy
  pure (cq.filter (fun q => pyStrip q != ""))

/-- Role derivation from `metadata["round"]` (lines 312-315). -/
def updateMetadataRole (m : PyVal) : Except PyErr PyVal := do
  let hasRound ← pyContains m "round"
  if hasRound then do
    let r ← pyGetItem m (.str "round")
    let role := if pyEq r (.int 1) then "Initial Researcher"
      else if pyEq r (.int 2) then "Critical Analyst"
      else "Practical Implementer"
    pySetItem m "role" (.str role)
  else pure m

/-- The findings-structuring dispatch (lines 224-292): flat text lines go
through the scanning/fallback pass, mappings are backfilled, a mixed or
non-list value is left unchanged. -/
def structureFindingsVal (qta findingsv : PyVal) : Except PyErr PyVal :=
  match findingsv with
  | .list fs =>
    if fs.all isStrVal then do
      let lines := fs.map strOf
      let structured ← structureStrFindings qta lines
      pure (PyVal.list (structured.map (fun sp =>
        PyVal.dict [("section", .str sp.1), ("points", .list (sp.2.map PyVal.str))])))
    else if fs.all isDictVal then
      pure (PyVal.list (fs.map backfillDictFinding))
    else pure findingsv
  | _ => pure findingsv

/-- The findings post-processing loop (lines 297-307). -/
def cleanStage (findingsv2 : PyVal) : Except PyErr (List (String × List String)) := do
  let items ← pyIter findingsv2
  let cleanedOpt ← items.mapM cleanFinding
  pure (cleanedOpt.filterMap id)

/-- `process_agent_response` (lines 215-332).  `loads` stands for
`json.loads`; only `json.JSONDecodeError` (its error case) is caught, with
the opaque-text fallback; every other exception propagates. -/
def processAgentResponse (loads : String → Except Unit PyVal) (finding0 : PyVal) :
    Except PyErr AgentRecord :=
  let go : PyVal → Except PyErr AgentRecord := fun finding => do
    let qta ← pyDictGet finding "questions_to_answer" (.list [])
    let findingsv ← pyDictGet finding "findings" (.list [])
    let findingsv2 ← structureFindingsVal qta findingsv
    let qv ← pyDictGet finding "questions" (.list [])
    let mv ← pyDictGet finding "metadata" (.dict [])
    let cleaned ← cleanStage findingsv2
    let cq ← cleanQuestions qv
    let mv2 ← updateMetadataRole mv
    pure ⟨cleaned, cq, mv2, qta⟩
  match finding0 with
  | .str s =>
    match loads s with
    | .error _ => do
      let t ← cleanText s
      pure ⟨[("Key Findings", [t])], [], .dict [], .list []⟩
    | .ok v => go v
  | v => go v

/-! ## `get_relevant_context` (`text_processing.py` lines 23-121) -/

/-- The context bundle (`previous_questions`, `relevant_findings`);
retained findings are kept as the raw store rows. -/
structure CtxBundle where
  previous_questions : List String
  relevant_findings : List PyVal

/-- Findings flattening (lines 66-72): `extend` iterates each row's
`findings` value. -/
def grcExtractFindings (kbData : PyVal) : Except PyErr (List PyVal) :=
  match kbData with
  | .list items =>
    items.foldlM (fun acc item =>
      match item with
      | .dict kvs =>
        match lookupKey kvs "findings" with
        | some fv => do
          let xs ← pyIter fv
          pure (acc ++ xs)
        | Option.none => pure acc
      | _ => pure acc) []
  | .dict kvs =>
    match lookupKey kvs "findings" with
    | some fv => pyIter fv
    | Option.none => pure []
  | _ => pure []

/-- `.lower()` on a value: strings only, else `AttributeError`. -/
def pyLowerAttr (v : PyVal) : Except PyErr String :=
  match v with
  | .str s => .ok (pyLower s)
  | _ => .error .attributeError

/-- `.strip()` on a value: strings only, else `AttributeError`. -/
def pyStripAttr (v : PyVal) : Except PyErr String :=
  match v with
  | .str s => .ok (pyStrip s)
  | _ => .error .attributeError

/-- The containment-based duplicate test of line 81. -/
def sectionDup (sec : String) (seen : List String) : Bool :=
  seen.any (fun sn => strIn sec sn || strIn sn sec)

/-- Line 87: `any(len(point.strip()) > 50 for point in points)`; the
generator is lazy, so rows after the first success are not touched. -/
def hasLongPoint (ptsv : PyVal) : Except PyErr Bool := do
  let xs ← pyIter ptsv
  xs.foldlM (fun found p =>
    if found then pure true
    else do
      let sp ← pyStripAttr p
      pure (decide (sp.data.length > 50))) false

/-- One iteration of the dedup/quality filter (lines 77-91), over the
state `(seen_sections, unique_findings)`. -/
def grcFilterStep (st : List String × List PyVal) (f : PyVal) :
    Except PyErr (List String × List PyVal) := do
  let secv ← pyDictGet f "section" (.str "")
  let sec ← pyLowerAttr secv
  let ptsv ← pyDictGet f "points" (.list [])
  if sectionDup sec st.1 then pure st
  else do
    let n ← pyLen ptsv
    if n < 2 then pure st
    else do
      let long ← hasLongPoint ptsv
      if long then pure (st.1 ++ [sec], st.2 ++ [f]) else pure st

def grcFilterFindings (fs : List PyVal) : Except PyErr (List PyVal) := do
  let st ← fs.foldlM grcFilterStep ([], [])
  pure st.2

def grcFindingsStage (kbData : PyVal) : Except PyErr (List PyVal) := do
  let fs ← grcExtractFindings kbData
  grcFilterFindings fs

/-- Questions selection (lines 93-100): for a sequence response take the
second-to-last row's `questions`; for a mapping its `questions` field. -/
def grcRawQuestions (kbData : PyVal) : PyVal :=
  match kbData with
  | .list items =>
    if items.length ≥ 2 then
      match items.get? (items.length - 2) with
      | some (PyVal.dict kvs) =>
        match lookupKey kvs "questions" with
        | some q => q
        | Option.none => .list []
      | _ => .list []
    else .list []
  | .dict kvs =>
    match lookupKey kvs "questions" with
    | some q => q
    | Option.none => .list []
  | _ => .list []

/-- `dict.fromkeys` deduplication, preserving first-seen order. -/
def dedupKeepFirst (l : List String) : List String :=
  l.foldl (fun acc x => if acc.contains x then acc else acc ++ [x]) []

def grcQuestionsStage (kbData : PyVal) : Except PyErr (List String) := do
  let qs ← pyIter (grcRawQuestions kbData)
  let cq ← qs.mapM cleanTextPy
  pure (dedupKeepFirst cq)

/-- The three fixed generic backfill questions (lines 106-110). -/
def genericQuestions : List String :=
  ["What are the key challenges and limitations in this area?",
   "How can these findings be applied in real-world scenarios?",
   "What future developments or trends should be considered?"]

/-- The body after `kb_data` is resolved: findings filter, question
dedup, and the under-3 backfill. -/
def grcMain (kbData : PyVal) : Except PyErr CtxBundle := do
  let fs ← grcFindingsStage kbData
  let uq ← grcQuestionsStage kbData
  let uq := if uq.length < 3 then uq ++ genericQuestions else uq
  pure ⟨uq, fs⟩

/-- The `try` body of `get_relevant_context`: index `results[-1]`, decode
a string payload (a `json.JSONDecodeError` returns the empty bundle, lines
60-62), and run the main stages. -/
def grcTryBody (kbResults : List PyVal) (loads : String → Except Unit PyVal) :
    Except PyErr (Option CtxBundle) :=
  match kbResults.getLast? with
  | Option.none => .error .indexError
  | some last =>
    match last with
    | .str s =>
      match loads s with
      | .error _ => .ok (some ⟨[], []⟩)
      | .ok v => (fun b => some b) <$> grcMain v
    | v => (fun b => some b) <$> grcMain v

/-- `get_relevant_context` (lines 23-121).  `kbRun` is the store call's
outcome (its `results` list, or the exception it raised).  The trailing
`except Exception` (line 120) only logs, so the function falls off the end
and returns `None`: no exception ever propagates to the caller. -/
def getRelevantContext (kbRun : Except PyErr (List PyVal))
    (loads : String → Except Unit PyVal) : Except PyErr (Option CtxBundle) :=
  match (do
      let res ← kbRun
      grcTryBody res loads : Except PyErr (Option CtxBundle)) with
  | .ok r => .ok r
  | .error _ => .ok Option.none

/-! ## `summarize_questions_to_topic` (`text_processing.py` lines 123-161) -/

/-- `create_summary_prompt` (`prompts.py` lines 122-131). -/
def createSummaryPrompt (questions : List String) (topic : String) : String :=
  "Based on the following questions about " ++ topic ++ ", " ++
  "create a focused research topic that encompasses all these questions. " ++
  "The topic should be specific, actionable, and guide the next phase of research.\n\n" ++
  "Questions to consider:\n" ++
  String.intercalate "\n" (questions.map (fun q => "- " ++ q)) ++ "\n\n" ++
  "Provide a single, well-formed topic that captures the essence of these questions."

/-- Extraction of the completion text (lines 153-156): the mapping shape
`response['choices'][0]['message']['content']`; every non-mapping value of
the modelled fragment lacks the `.choices` attribute. -/
def extractContent (resp : PyVal) : Except PyErr PyVal :=
  match resp with
  | .dict _ => do
    let cs ← pyGetItem resp (.str "choices")
    let c0 ← pyGetItem cs (.int 0)
    let msg ← pyGetItem c0 (.str "message")
    pyGetItem msg (.str "content")
  | _ => .error .attributeError

/-- `summarize_questions_to_topic` (lines 123-161).  `infResp` is the
inference call's outcome.  The `except` handler returns the *current*
binding of `topic`: the original argument if the failure happened before
the `topic = response…content` reassignment, but the raw extracted
content if `clean_text` is what failed. -/
def summarizeQuestionsToTopic (questions : List String) (topic : String)
    (infResp : Except PyErr PyVal) : PyVal :=
  let _prompt := createSummaryPrompt questions topic
  match (do
      let resp ← infResp
      extractContent resp : Except PyErr PyVal) with
  | .error _ => .str topic
  | .ok c =>
    match cleanTextPy c with
    | .ok t => .str t
    | .error _ => c

/-! ## Prompt builders (`prompts.py`) -/

/-- `create_research_prompt` (`prompts.py` lines 6-27). -/
def createResearchPrompt (topic : String) : String :=
  "Research Topic: " ++ topic ++ "\n\n" ++
  "You are the Research Agent. Your role is to:\n" ++
  "- Conduct comprehensive initial research\n" ++
  "- Identify key areas and trends\n" ++
  "- Generate focused questions\n" ++
  "- Provide detailed findings with evidence\n\n" ++
  "Your response should include:\n" ++
  "- 7-8 distinct sections\n" ++
  "- 4-6 detailed points per section\n" ++
  "- Specific examples and evidence\n" ++
  "- 4-6 follow-up questions\n\n" ++
  "IMPORTANT: Focus on gathering factual information and evidence. " ++
  "Do not include analysis or synthesis - that will be done by other agents.\n\n" ++
  "Format each section as:\n" ++
  "Section: [Topic]\n" ++
  "- [Detailed point with evidence]\n" ++
  "- [Detailed point with evidence]\n" ++
  "etc."

/-- Role guidelines for the analyst (`prompts.py` lines 37-63). -/
def analystGuidelines : String :=
  "You are the Critical Analyst. Your role is to:\n" ++
  "- Analyze previous findings critically\n" ++
  "- Challenge assumptions\n" ++
  "- Evaluate evidence quality\n" ++
  "- Identify gaps and biases\n" ++
  "- Consider ethical implications\n\n" ++
  "IMPORTANT: Do not repeat the basic findings. Instead:\n" ++
  "- Evaluate the strength of evidence for each finding\n" ++
  "- Identify potential biases or limitations\n" ++
  "- Challenge assumptions and explore alternative explanations\n" ++
  "- Consider ethical implications and potential harms\n" ++
  "- Suggest areas where more research is needed\n\n" ++
  "Your analysis should focus on:\n" ++
  "1. Evidence Quality: Evaluate the strength and reliability of evidence\n" ++
  "2. Methodological Limitations: Identify study design issues and biases\n" ++
  "3. Alternative Explanations: Consider other factors that might explain findings\n" ++
  "4. Ethical Considerations: Examine potential harms and benefits\n" ++
  "5. Research Gaps: Identify areas needing further investigation\n" ++
  "6. Implementation Challenges: Analyze practical barriers to applying findings\n" ++
  "7. Future Implications: Consider long-term consequences and trends\n\n" ++
  "Format your analysis as:\n" ++
  "Analysis Section: [Focus Area]\n" ++
  "- [Critical evaluation point with evidence]\n" ++
  "- [Limitation or alternative explanation]\n" ++
  "- [Implications or recommendations]"

/-- Role guidelines for the synthesizer (`prompts.py` lines 65-91). -/
def synthesizerGuidelines : String :=
  "You are the Synthesizer. Your role is to:\n" ++
  "- Integrate all previous findings\n" ++
  "- Identify patterns and themes\n" ++
  "- Draw conclusions\n" ++
  "- Propose applications\n" ++
  "- Consider future implications\n\n" ++
  "IMPORTANT: Do not repeat the basic findings. Instead:\n" ++
  "- Connect findings across different areas\n" ++
  "- Identify emerging patterns and themes\n" ++
  "- Draw practical conclusions\n" ++
  "- Suggest real-world applications\n" ++
  "- Consider future implications and trends\n\n" ++
  "Your synthesis should focus on:\n" ++
  "1. Pattern Recognition: Identify common themes across findings\n" ++
  "2. Cross-Domain Connections: Link findings from different areas\n" ++
  "3. Practical Applications: Suggest real-world implementations\n" ++
  "4. Policy Implications: Consider regulatory and policy needs\n" ++
  "5. Future Scenarios: Project potential outcomes and trends\n" ++
  "6. Stakeholder Impact: Analyze effects on different groups\n" ++
  "7. Action Recommendations: Provide specific next steps\n\n" ++
  "Format your synthesis as:\n" ++
  "Synthesis Section: [Theme/Pattern]\n" ++
  "- [Connection or pattern identified]\n" ++
  "- [Practical application or implication]\n" ++
  "- [Recommendation or next step]"

/-- Fallback role guidelines (`prompts.py` lines 93-99). -/
def defaultGuidelines : String :=
  "You are the Research Agent. Your role is to:\n" ++
  "- Provide detailed analysis\n" ++
  "- Focus on practical implications\n" ++
  "- Consider challenges\n" ++
  "- Generate new perspectives"

/-- `', '.join(v)`: iterate and require string elements (`TypeError`
otherwise). -/
def pyJoin (sep : String) (v : PyVal) : Except PyErr String := do
  let xs ← pyIter v
  let ss ← xs.mapM (fun x =>
    match x with
    | PyVal.str s => pure s
    | _ => Except.error PyErr.typeError)
  pure (String.intercalate sep ss)

/-- `create_agent_prompt` (`prompts.py` lines 29-120).  `context` is the
value returned by `get_relevant_context` (`None` on a swallowed error).
`previous_findings_text` is assigned only under `if previous_findings:`
but is referenced unconditionally by the returned f-string, so an empty
findings list raises `NameError`; a `None` context raises
`AttributeError` at `context.get`. -/
def createAgentPrompt (currentTopic : String) (summarisedTopic : PyVal)
    (agentName : String) (context : Option CtxBundle) : Except PyErr String :=
  let roleGuidelines :=
    if pyLower agentName == "analyst" then analystGuidelines
    else if pyLower agentName == "synthesizer" then synthesizerGuidelines
    else defaultGuidelines
  match context with
  | Option.none => .error .attributeError
  | some b => do
    let previousFindings := b.relevant_findings
    let pfText : Option String ←
      if !previousFindings.isEmpty then do
        let t ← previousFindings.foldlM (fun acc f => do
          let sec ← pyGetItem f (.str "section")
          let ptsv ← pyGetItem f (.str "points")
          let joined ← pyJoin ", " ptsv
          pure (acc ++ "- " ++ pyStr sec ++ ": " ++ joined ++ "\n")) ""
        pure (some (t ++ "\n"))
      else pure Option.none
    let _pqText :=
      if !b.previous_questions.isEmpty then
        "Questions to address:\n" ++
          String.join (b.previous_questions.map (fun q => "- " ++ q ++ "\n")) ++ "\n"
      else ""
    match pfText with
    | Option.none => .error .nameError
    | some t =>
      pure ("Topic: " ++ pyStr summarisedTopic ++ "\n\n" ++ roleGuidelines ++ "\n\n" ++
        "Remember to build upon " ++ t ++ " rather than repeating them.")

/-! ## The orchestrator (`run.py` lines 50-249) -/

/-- Behaviour of the external collaborators during one `run()` call:
the three agents' `results` lists (or the exception their invocation
raised), the store's three writes and two context queries, the three
summarizer inference calls, and `json.loads`. -/
structure Env where
  runId : String
  topic : String
  researcherResults : Except PyErr (List PyVal)
  analystResults : Except PyErr (List PyVal)
  synthesizerResults : Except PyErr (List PyVal)
  kbWrite1 : Except PyErr PyVal
  kbWrite2 : Except PyErr PyVal
  kbWrite3 : Except PyErr PyVal
  kbQuery2 : Except PyErr (List PyVal)
  kbQuery3 : Except PyErr (List PyVal)
  infer1 : Except PyErr PyVal
  infer2 : Except PyErr PyVal
  infer3 : Except PyErr PyVal
  loads : String → Except Unit PyVal

/-- The substituted record of the per-round handlers (`run.py` lines
89-93 and 196-200).  The source writes no `questions_to_answer` key and
nothing ever reads it; modelled as the empty list. -/
def errorAgentRecord (e : PyErr) : AgentRecord :=
  ⟨[], [], .dict [("error", .str (pyErrMsg e))], .list []⟩

/-- `results[-1]` on an agent result. -/
def pyLastList (xs : List PyVal) : Except PyErr PyVal :=
  match xs.getLast? with
  | some v => .ok v
  | Option.none => .error .indexError

/-- The per-round `try` around indexing + parsing (`run.py` lines 77-93):
any exception is replaced by the error record.  `save_agent_results`
(`utils.py` lines 36-72) catches all its own exceptions and is omitted. -/
def roundParse (loads : String → Except Unit PyVal) (results : List PyVal) : AgentRecord :=
  match (do
      let last ← pyLastList results
      processAgentResponse loads last : Except PyErr AgentRecord) with
  | .ok r => r
  | .error e => errorAgentRecord e

/-- A cleaned findings row as stored and returned (`section`/`points`). -/
def findingToPy (sp : String × List String) : PyVal :=
  .dict [("section", .str sp.1), ("points", .list (sp.2.map PyVal.str))]

/-- One iteration of the rounds 2-3 loop (`run.py` lines 134-230):
context fetch, prompt build, `clean_text` of the prompt for the agent
input, agent call, guarded parse + topic re-summarization, store write,
and aggregation.  Returns the updated `(summarised_topic, all_findings,
all_questions)`. -/
def runRound (loads : String → Except Unit PyVal) (currentTopic : String)
    (summarisedTopic : PyVal) (agentName : String)
    (kbQuery : Except PyErr (List PyVal)) (agentResults : Except PyErr (List PyVal))
    (infResp : Except PyErr PyVal) (kbWrite : Except PyErr PyVal)
    (allF : List (String × List String)) (allQ : List String) :
    Except PyErr (PyVal × List (String × List String) × List String) := do
  let contextVal ← getRelevantContext kbQuery loads
  let prompt ← createAgentPrompt currentTopic summarisedTopic agentName contextVal
  let _formattedContent ← cleanText prompt
  let results ← agentResults
  let (agentData, summarisedTopic') :=
    match (do
        let last ← pyLastList results
        processAgentResponse loads last : Except PyErr AgentRecord) with
    | .ok r => (r, summarizeQuestionsToTopic r.questions currentTopic infResp)
    | .error e => (errorAgentRecord e, summarisedTopic)
  let _ ← kbWrite
  let allF' := if !agentData.findings.isEmpty then allF ++ agentData.findings else allF
  let allQ' := if !agentData.questions.isEmpty then allQ ++ agentData.questions else allQ
  pure (summarisedTopic', allF', allQ')

/-- The `try` body of `GroupChatOrchestrator.run` (`run.py` lines 52-241),
yielding the aggregated findings, questions, and the final topic. -/
def runBody (env : Env) :
    Except PyErr (List (String × List String) × List String × String) := do
  let currentTopic ← cleanText env.topic
  let researchPrompt := createResearchPrompt currentTopic
  let _formattedContent ← cleanText researchPrompt
  let resResults ← env.researcherResults
  let researchData := roundParse env.loads resResults
  let _ ← env.kbWrite1
  let allF := researchData.findings
  let allQ := researchData.questions
  let st0 := summarizeQuestionsToTopic researchData.questions currentTopic env.infer1
  let (st2, allF2, allQ2) ← runRound env.loads currentTopic st0 "analyst"
    env.kbQuery2 env.analystResults env.infer2 env.kbWrite2 allF allQ
  let (_st3, allF3, allQ3) ← runRound env.loads currentTopic st2 "synthesizer"
    env.kbQuery3 env.synthesizerResults env.infer3 env.kbWrite3 allF2 allQ2
  pure (allF3, allQ3, currentTopic)

/-- `GroupChatOrchestrator.run` (`run.py` lines 50-249): the whole body is
wrapped in `try … except Exception`, which converts any escaped exception
into the structured error record, so the call itself always returns a
value. -/
def orchestratorRun (env : Env) : Except PyErr PyVal :=
  match runBody env with
  | .ok (fs, qs, ct) => .ok (.dict
      [("status", .str "success"),
       ("findings", .list (fs.map findingToPy)),
       ("questions", .list (qs.map PyVal.str)),
       ("metadata", .dict
         [("run_id", .str env.runId),
          ("num_rounds", .int 3),
          ("final_topic", .str ct)])])
  | .error e => .ok (.dict
      [("status", .str "error"),
       ("message", .str (pyErrMsg e))])

/-! ## Predicates used by the theorems -/

/-- The string contains no backslash, hence no escape sequence: on such
input the `unicode_escape` decode step cannot fail. -/
def noBackslash (s : String) : Bool :=
  s.data.all (fun c => c != '\\')

/-- An ASCII character that survives the `clean_text` character filter. -/
def asciiKept (c : Char) : Bool :=
  c.toNat < 128 && keptChar c

/-- Every character is ASCII and kept; every whitespace character is a
plain space whose successor exists and is not whitespace (no trailing
space, no adjacent whitespace). -/
def canonAux : List Char → Bool
  | [] => true
  | c :: rest =>
    asciiKept c &&
    (if pyIsSpace c then
      (c == ' ' && match rest with
        | [] => false
        | d :: _ => !pyIsSpace d)
     else true) &&
    canonAux rest

/-- A canonical cleaned string: `canonAux` plus no leading whitespace.
Every such string is a fixed point of `clean_text`. -/
def isCanonicalClean (s : String) : Bool :=
  match s.data with
  | [] => true
  | c :: _ => !pyIsSpace c && canonAux s.data

/-- The line cannot trip the `current_section[0]` `IndexError` of the
scanning loop: it is not a heading line, or marker stripping leaves it
non-empty. -/
def scanSafeLine (line : String) : Bool :=
  let l := pyStrip line
  !(headingMarkers.any (fun p => strStarts p l)) || stripHeadingMarkers l != ""

/-- A list value whose elements are all backslash-free strings. -/
def strListNoBack (v : PyVal) : Bool :=
  match v with
  | .list qs => qs.all (fun q =>
      match q with
      | PyVal.str s => noBackslash s
      | _ => false)
  | _ => false

/-- Invariant carried through the scanning loop: every string in the
state is backslash-free. -/
def ScanInv (st : ScanState) : Prop :=
  (∀ s, st.cur = some s → noBackslash s = true) ∧
  (∀ p ∈ st.pts, noBackslash p = true) ∧
  (∀ e ∈ st.acc, noBackslash e.1 = true ∧ ∀ p ∈ e.2, noBackslash p = true)

/-- A response mapping on which `process_agent_response` provably cannot
raise: `questions_to_answer` and `questions` are lists of backslash-free
strings, `findings` is a list of backslash-free scan-safe strings, and
`metadata` is a mapping. -/
def wellTypedResponse (d : List (String × PyVal)) : Bool :=
  strListNoBack ((lookupKey d "questions_to_answer").getD (.list [])) &&
  (match (lookupKey d "findings").getD (.list []) with
   | .list fs => fs.all (fun f =>
       match f with
       | PyVal.str s => noBackslash s && scanSafeLine s
       | _ => false)
   | _ => false) &&
  strListNoBack ((lookupKey d "questions").getD (.list [])) &&
  isDictVal ((lookupKey d "metadata").getD (.dict []))

/-! ## Concrete values used by counterexamples and witnesses -/

/-- A `json.loads` behaviour that rejects every string (all the inputs it
is applied to below are not valid JSON). -/
def loads0 : String → Except Unit PyVal := fun _ => .error ()

def longPointText : String :=
  "This is a sufficiently long point exceeding the fifty character limit for sure."

/-- A store row passing the quality filter (two points, one long). -/
def goodFindingRow : PyVal :=
  .dict [("section", .str "Alpha"), ("points", .list [.str longPointText, .str "short point"])]

/-- A store row with a single (long) point: fewer than 2 points. -/
def singlePointRow : PyVal :=
  .dict [("section", .str "Beta"), ("points", .list [.str longPointText])]

/-- A store row with two points, none longer than 50 characters. -/
def shortPointsRow : PyVal :=
  .dict [("section", .str "Gamma"), ("points", .list [.str "short one", .str "short two"])]

/-- A well-formed researcher/analyst response used by the run-level
environments. -/
def agentRespVal : PyVal :=
  .dict [("findings", .list
            [.str "Section: Benefits",
             .str ("- " ++ longPointText),
             .str "- second supporting point"]),
         ("questions", .list [.str "Q1", .str "Q2"]),
         ("metadata", .dict [("round", .int 1)])]

/-- A store query result carrying one quality finding and one question. -/
def kbGoodRow : PyVal :=
  .dict [("findings", .list [goodFindingRow]), ("questions", .list [.str "Prev question"])]

/-- A store query result with questions but no findings at all: the
retrieved `relevant_findings` list is empty. -/
def kbNoFindingsRow : PyVal :=
  .dict [("questions", .list [.str "q"])]

/-- An environment whose round-2 context query returns no findings; the
rest of the collaborators behave normally. -/
def envRound2Empty : Env :=
  { runId := "r", topic := "t",
    researcherResults := .ok [agentRespVal],
    analystResults := .ok [agentRespVal],
    synthesizerResults := .ok [agentRespVal],
    kbWrite1 := .ok .none, kbWrite2 := .ok .none, kbWrite3 := .ok .none,
    kbQuery2 := .ok [kbNoFindingsRow],
    kbQuery3 := .ok [kbGoodRow],
    infer1 := .error .runtimeError,
    infer2 := .error .runtimeError,
    infer3 := .error .runtimeError,
    loads := loads0 }

/-- An inference response whose extracted content `"\x"` makes
`clean_text` raise inside the summarizer. -/
def badContentResp : PyVal :=
  .dict [("choices", .list [.dict [("message", .dict [("content", .str "\\x")])]])]

/-- A response whose flat findings produce a section in the scan (so
Fallback A is skipped) while a line overlaps the question "alpha". -/
def respWithSection : List (String × PyVal) :=
  [("questions_to_answer", .list [.str "alpha"]),
   ("findings", .list [.str "Section: Intro", .str "- alpha beta", .str "- gamma alpha"])]

/-! # Theorems -/

/-! ## Totality of `clean_text` on backslash-free input -/

theorem char_toNat_92 {c : Char} (h : c.toNat = 92) : c = '\\' := by
  have h2 := Char.ofNat_toNat c
  rw [h] at h2
  exact h2.symm

theorem mem_utf8Char_ne92 {c : Char} (hc : c ≠ '\\') : ∀ b ∈ utf8Char c, b ≠ 92 := by
  intro b hb
  unfold utf8Char at hb
  dsimp only at hb
  split_ifs at hb with h1 h2 h3
  · simp only [List.mem_singleton] at hb
    subst hb
    intro h92
    exact hc (char_toNat_92 h92)
  · simp only [List.mem_cons, List.not_mem_nil, or_false] at hb
    rcases hb with h | h <;> omega
  · simp only [List.mem_cons, List.not_mem_nil, or_false] at hb
    rcases hb with h | h | h <;> omega
  · simp only [List.mem_cons, List.not_mem_nil, or_false] at hb
    rcases hb with h | h | h | h <;> omega

theorem decodeUEFuel_no92 :
    ∀ (fuel : Nat) (l : List Nat), l.length ≤ fuel → (∀ b ∈ l, b ≠ 92) →
      decodeUEFuel fuel l = .ok (l.map Char.ofNat) := by
  intro fuel
  induction fuel with
  | zero =>
    intro l hl _
    cases l with
    | nil => rfl
    | cons b rest => simp at hl
  | succ n ih =>
    intro l hl h
    cases l with
    | nil => rfl
    | cons b rest =>
      have hb : b ≠ 92 := h b (List.mem_cons_self b rest)
      have hr : rest.length ≤ n := by
        simp only [List.length_cons] at hl
        omega
      have hstep : decodeUEFuel (n + 1) (b :: rest) =
          (Char.ofNat b :: ·) <$> decodeUEFuel n rest := if_neg hb
      rw [hstep, ih rest hr (fun x hx => h x (List.mem_cons_of_mem b hx))]
      rfl

theorem unicodeEscapeDecode_no92 :
    ∀ l : List Nat, (∀ b ∈ l, b ≠ 92) → unicodeEscapeDecode l = .ok (l.map Char.ofNat) :=
  fun l h => decodeUEFuel_no92 l.length l (Nat.le_refl _) h

theorem utf8Encode_no92 {s : String} (h : noBackslash s = true) :
    ∀ b ∈ utf8Encode s, b ≠ 92 := by
  intro b hb
  unfold utf8Encode at hb
  rw [List.mem_flatten] at hb
  obtain ⟨bl, hbl, hbmem⟩ := hb
  rw [List.mem_map] at hbl
  obtain ⟨c, hc, rfl⟩ := hbl
  have hcne : c ≠ '\\' := by
    unfold noBackslash at h
    have := List.all_eq_true.mp h c hc
    simpa using this
  exact mem_utf8Char_ne92 hcne b hbmem

theorem cleanText_total {s : String} (h : noBackslash s = true) :
    ∃ t, cleanText s = .ok t := by
  unfold cleanText
  by_cases hs : s = ""
  · rw [if_pos hs]
    exact ⟨"", rfl⟩
  · rw [if_neg hs, unicodeEscapeDecode_no92 _ (utf8Encode_no92 h)]
    exact ⟨_, rfl⟩

/-! ## The canonical fixed points of `clean_text` -/

theorem canonAux_parts {c : Char} {rest : List Char} (h : canonAux (c :: rest) = true) :
    asciiKept c = true ∧
    (pyIsSpace c = true → c = ' ' ∧ ∃ d t, rest = d :: t ∧ pyIsSpace d = false) ∧
    canonAux rest = true := by
  unfold canonAux at h
  by_cases hsp : pyIsSpace c
  · rw [if_pos hsp] at h
    simp only [Bool.and_eq_true] at h
    refine ⟨h.1.1, fun _ => ⟨by simpa using h.1.2.1, ?_⟩, h.2⟩
    cases rest with
    | nil => simp at h
    | cons d t =>
      refine ⟨d, t, rfl, ?_⟩
      have := h.1.2.2
      simpa using this
  · rw [if_neg hsp] at h
    simp only [Bool.and_eq_true] at h
    exact ⟨h.1.1, fun hc => absurd hc hsp, h.2⟩

theorem collapseWs_canon_aux :
    ∀ (n : Nat) (l : List Char), l.length ≤ n → canonAux l = true → collapseWs l = l := by
  intro n
  induction n with
  | zero =>
    intro l hl _
    cases l with
    | nil => rfl
    | cons c rest => simp at hl
  | succ n ih =>
    intro l hl h
    cases l with
    | nil => rfl
    | cons c rest =>
      obtain ⟨_, hsp, hrest⟩ := canonAux_parts h
      by_cases hc : pyIsSpace c
      · obtain ⟨hcs, d, t, hdt, hd⟩ := hsp hc
        subst hdt
        obtain ⟨_, _, ht⟩ := canonAux_parts hrest
        have htlen : t.length ≤ n := by
          simp only [List.length_cons] at hl
          omega
        simp only [collapseWs, if_pos hc, skipRun, if_neg (by simp [hd] : ¬pyIsSpace d = true)]
        rw [ih t htlen ht, hcs]
      · have hrlen : rest.length ≤ n := by
          simp only [List.length_cons] at hl
          omega
        simp only [collapseWs, if_neg hc]
        rw [ih rest hrlen hrest]

theorem collapseWs_canon : ∀ l : List Char, canonAux l = true → collapseWs l = l :=
  fun l h => collapseWs_canon_aux l.length l (Nat.le_refl _) h

theorem canon_all_kept {l : List Char} (h : canonAux l = true) :
    ∀ c ∈ l, keptChar c = true := by
  induction l with
  | nil => intro c hc; cases hc
  | cons a rest ih =>
    intro c hc
    obtain ⟨ha, _, hrest⟩ := canonAux_parts h
    rcases List.mem_cons.mp hc with rfl | hmem
    · simp only [asciiKept, Bool.and_eq_true] at ha
      exact ha.2
    · exact ih hrest c hmem

theorem canon_all_ascii {l : List Char} (h : canonAux l = true) :
    ∀ c ∈ l, c.toNat < 128 := by
  induction l with
  | nil => intro c hc; cases hc
  | cons a rest ih =>
    intro c hc
    obtain ⟨ha, _, hrest⟩ := canonAux_parts h
    rcases List.mem_cons.mp hc with rfl | hmem
    · simp only [asciiKept, Bool.and_eq_true] at ha
      simpa using ha.1
    · exact ih hrest c hmem

theorem canon_last_not_space :
    ∀ l : List Char, canonAux l = true → ∀ c, l.getLast? = some c → pyIsSpace c = false := by
  intro l
  induction l with
  | nil => intro _ c hc; cases hc
  | cons a rest ih =>
    intro h c hc
    obtain ⟨_, hsp, hrest⟩ := canonAux_parts h
    cases rest with
    | nil =>
      have hone : (a :: ([] : List Char)).getLast? = some a := by simp
      rw [hone] at hc
      injection hc with hac
      subst hac
      by_cases hspc : pyIsSpace a
      · obtain ⟨_, d, t, hdt, _⟩ := hsp hspc
        cases hdt
      · simpa using hspc
    | cons d t =>
      rw [List.getLast?_cons_cons] at hc
      exact ih hrest c hc

theorem strip_canon {l : List Char} (hhead : ∀ c, l.head? = some c → pyIsSpace c = false)
    (h : canonAux l = true) : pyStripChars l = l := by
  unfold pyStripChars
  have h1 : l.dropWhile pyIsSpace = l := by
    cases l with
    | nil => rfl
    | cons c t =>
      have := hhead c rfl
      exact List.dropWhile_cons_of_neg (by simp [this])
  rw [h1]
  have h2 : l.reverse.dropWhile pyIsSpace = l.reverse := by
    cases hr : l.reverse with
    | nil => rfl
    | cons c t =>
      have hc : l.getLast? = some c := by
        rw [← List.head?_reverse, hr]
        rfl
      have := canon_last_not_space l h c hc
      exact List.dropWhile_cons_of_neg (by simp [this])
  rw [h2, List.reverse_reverse]

theorem utf8Encode_ascii :
    ∀ l : List Char, (∀ c ∈ l, c.toNat < 128) → (l.map utf8Char).flatten = l.map Char.toNat := by
  intro l
  induction l with
  | nil => intro _; rfl
  | cons c rest ih =>
    intro h
    have hc : utf8Char c = [c.toNat] := by
      unfold utf8Char
      rw [if_pos (h c (List.mem_cons_self c rest))]
    simp only [List.map_cons, List.flatten_cons, hc,
      ih (fun x hx => h x (List.mem_cons_of_mem c hx)), List.singleton_append]

theorem map_ofNat_toNat : ∀ l : List Char, (l.map Char.toNat).map Char.ofNat = l := by
  intro l
  induction l with
  | nil => rfl
  | cons c rest ih => simp [Char.ofNat_toNat, ih]

theorem kept_ne_backslash {c : Char} (h : keptChar c = true) : c ≠ '\\' := by
  intro heq
  subst heq
  revert h
  decide

theorem string_mk_data (s : String) : String.mk s.data = s := by
  cases s
  rfl

theorem cleanText_fixed {y : String} (h : isCanonicalClean y = true) : cleanText y = .ok y := by
  unfold isCanonicalClean at h
  cases hd : y.data with
  | nil =>
    have hy : y = "" := by
      apply String.ext
      rw [hd]
    rw [hy]
    rfl
  | cons c t =>
    rw [hd] at h
    simp only [Bool.and_eq_true, Bool.not_eq_true'] at h
    obtain ⟨hhd, hcanon⟩ := h
    have hcanon' : canonAux y.data = true := by rw [hd]; exact hcanon
    have hne : y ≠ "" := by
      intro hy
      rw [hy] at hd
      cases hd
    unfold cleanText
    rw [if_neg hne]
    have hascii := canon_all_ascii hcanon'
    have hkept := canon_all_kept hcanon'
    have henc : utf8Encode y = y.data.map Char.toNat := by
      unfold utf8Encode
      exact utf8Encode_ascii y.data hascii
    have hno92 : ∀ b ∈ utf8Encode y, b ≠ 92 := by
      intro b hb
      rw [henc, List.mem_map] at hb
      obtain ⟨c', hc', rfl⟩ := hb
      intro h92
      exact kept_ne_backslash (hkept c' hc') (char_toNat_92 h92)
    have hh : ∀ c', y.data.head? = some c' → pyIsSpace c' = false := by
      intro c' hc'
      rw [hd] at hc'
      simp only [List.head?_cons, Option.some.injEq] at hc'
      subst hc'
      exact hhd
    rw [unicodeEscapeDecode_no92 _ hno92, henc, map_ofNat_toNat]
    show Except.ok (String.mk (pyStripChars ((collapseWs y.data).filter keptChar))) =
      Except.ok y
    rw [collapseWs_canon y.data hcanon', List.filter_eq_self.mpr hkept,
      strip_canon hh hcanon', string_mk_data]

/-! ## Claim C6 (text normalization idempotence) -/

/-- Claim C6, counterexample: `clean_text` is not idempotent.  Deleting a
special character can merge two whitespace runs that the earlier collapse
pass had already reduced: `clean_text "a @ b" = "a  b"` (two spaces), and
cleaning that output again gives `"a b"`. -/
theorem c6_counterexample :
    cleanText "a @ b" = .ok "a  b" ∧ cleanText "a  b" = .ok "a b" ∧
    ("a  b" : String) ≠ "a b" :=
  ⟨rfl, rfl, by decide⟩

/-- Claim C6 (corrected), amended: `clean_text` is idempotent on every
input whose cleaned form is canonical — ASCII characters kept by the
filter, whitespace only as single isolated interior spaces — i.e.
whenever `clean_text x` succeeds with a canonical result `y`, cleaning
`y` returns `y` unchanged.  (The general statement fails: character
removal can leave a double space, and escape-decoding of non-ASCII
output can alter it again.) -/
theorem c6_amended (x y : String) (hx : cleanText x = .ok y)
    (hy : isCanonicalClean y = true) : cleanText y = .ok y :=
  cleanText_fixed hy

theorem c6_witness : cleanText "Hello, world!" = Except.ok "Hello, world!" :=
  c6_amended "Hello, world!" "Hello, world!" (by rfl) (by decide)

/-! ## Claim C7 (totality of `clean_text`) -/

/-- Claim C7, counterexample: `clean_text` is not total.  On the
two-character string `\x`, `decode('unicode_escape')` raises
`UnicodeDecodeError` (truncated `\xXX` escape), which propagates. -/
theorem c7_counterexample : cleanText "\\x" = .error .valueError := rfl

/-- Claim C7 (corrected), amended: `clean_text` returns a string without
raising for every input containing no backslash (no escape sequence), and
the empty string yields the empty string; inputs with malformed escape
sequences raise `UnicodeDecodeError`. -/
theorem c7_amended :
    (∀ s, noBackslash s = true → ∃ t, cleanText s = .ok t) ∧
    cleanText "" = .ok "" :=
  ⟨fun _ h => cleanText_total h, rfl⟩

theorem c7_witness :
    noBackslash "plain text" = true ∧ ∃ t, cleanText "plain text" = .ok t :=
  ⟨by decide, c7_amended.1 "plain text" (by decide)⟩

/-! ## Claim C3 (summarizer failure handling) -/

/-- Claim C3, counterexample: the claim fails when the exception happens
during normalization.  The handler returns the *current* binding of
`topic`, which by then has been reassigned to the raw completion content:
with extracted content `"\x"` (whose `clean_text` raises), the summarizer
returns `"\x"`, not the original topic `"original topic"`. -/
theorem c3_counterexample :
    summarizeQuestionsToTopic [] "original topic" (.ok badContentResp) = .str "\\x" ∧
    PyVal.str "\\x" ≠ PyVal.str "original topic" := by
  refine ⟨rfl, ?_⟩
  intro h
  injection h with h2
  exact absurd h2 (by decide)

/-- Claim C3 (corrected), amended: an exception raised before the content
is extracted (inference failure, or a response shape without
`choices[0].message.content`) returns the original topic unchanged; if
normalization of the extracted content succeeds its cleaned form is
returned; but if normalization itself raises, the summarizer returns the
raw extracted content instead of the original topic. -/
theorem c3_amended (qs : List String) (topic : String) (infResp : Except PyErr PyVal) :
    (∀ e, infResp = .error e →
      summarizeQuestionsToTopic qs topic infResp = .str topic) ∧
    (∀ r, infResp = .ok r → ∀ e, extractContent r = .error e →
      summarizeQuestionsToTopic qs topic infResp = .str topic) ∧
    (∀ r c, infResp = .ok r → extractContent r = .ok c → ∀ t, cleanTextPy c = .ok t →
      summarizeQuestionsToTopic qs topic infResp = .str t) ∧
    (∀ r c, infResp = .ok r → extractContent r = .ok c → ∀ e, cleanTextPy c = .error e →
      summarizeQuestionsToTopic qs topic infResp = c) := by
  have hdo : ∀ r : PyVal,
      (do
        let resp ← (Except.ok r : Except PyErr PyVal)
        extractContent resp : Except PyErr PyVal) = extractContent r := fun _ => rfl
  refine ⟨fun e he => ?_, fun r hr e he => ?_,
    fun r c hr hc t ht => ?_, fun r c hr hc e he => ?_⟩
  · subst he; rfl
  · subst hr
    unfold summarizeQuestionsToTopic
    rw [hdo, he]
  · subst hr
    unfold summarizeQuestionsToTopic
    rw [hdo, hc]
    simp only [ht]
  · subst hr
    unfold summarizeQuestionsToTopic
    rw [hdo, hc]
    simp only [he]

theorem c3_witness :
    summarizeQuestionsToTopic ["Q1"] "the topic" (.error .runtimeError) =
      .str "the topic" :=
  (c3_amended ["Q1"] "the topic" (.error .runtimeError)).1 .runtimeError rfl

/-! ## Claim C1 (the parser never raises) -/

/-- Claim C1, counterexample: `process_agent_response` can raise.  On the
integer input `42` (neither string nor mapping) the very first
`finding.get(…)` raises `AttributeError`; and even the documented
opaque-text fallback raises when the garbage text contains a malformed
escape (`clean_text` fails on `"\x"`). -/
theorem c1_counterexample :
    processAgentResponse loads0 (.int 42) = .error .attributeError ∧
    processAgentResponse loads0 (.str "\\x") = .error .valueError :=
  ⟨rfl, rfl⟩

/-! ### Backslash-freeness is preserved by the scanning loop's string
operations (each produces a selection of the input's characters). -/

theorem noBackslash_mem {s : String} (h : noBackslash s = true) :
    ∀ c ∈ s.data, c ≠ '\\' := by
  unfold noBackslash at h
  intro c hc
  have := List.all_eq_true.mp h c hc
  simpa using this

theorem noBackslash_of_mem {s : String} (h : ∀ c ∈ s.data, c ≠ '\\') :
    noBackslash s = true := by
  unfold noBackslash
  rw [List.all_eq_true]
  intro c hc
  simpa using h c hc

theorem noBackslash_sub {s t : String} (hsub : ∀ c ∈ t.data, c ∈ s.data)
    (h : noBackslash s = true) : noBackslash t = true :=
  noBackslash_of_mem (fun c hc => noBackslash_mem h c (hsub c hc))

theorem pyStripChars_mem {l : List Char} : ∀ c ∈ pyStripChars l, c ∈ l := by
  intro c hc
  unfold pyStripChars at hc
  rw [List.mem_reverse] at hc
  have h1 := (List.dropWhile_sublist pyIsSpace).mem hc
  rw [List.mem_reverse] at h1
  exact (List.dropWhile_sublist pyIsSpace).mem h1

theorem pyStrip_mem {s : String} : ∀ c ∈ (pyStrip s).data, c ∈ s.data := by
  intro c hc
  exact pyStripChars_mem c hc

theorem noBackslash_pyStrip {s : String} (h : noBackslash s = true) :
    noBackslash (pyStrip s) = true :=
  noBackslash_sub pyStrip_mem h

theorem strDropLen_mem {n : Nat} {s : String} : ∀ c ∈ (strDropLen n s).data, c ∈ s.data := by
  intro c hc
  exact (List.drop_sublist n s.data).mem hc

theorem pyLStrip_mem {cs : List Char} {s : String} :
    ∀ c ∈ (pyLStrip cs s).data, c ∈ s.data := by
  intro c hc
  exact (List.dropWhile_sublist _).mem hc

theorem dropAfterInfix_mem {sep : List Char} :
    ∀ l : List Char, ∀ c ∈ dropThroughSep sep l, c ∈ l := by
  intro l
  induction l with
  | nil => intro c hc; cases hc
  | cons a t ih =>
    intro c hc
    unfold dropThroughSep at hc
    by_cases hs : startsList sep (a :: t) = true
    · rw [if_pos hs] at hc
      exact (List.drop_sublist _ _).mem hc
    · rw [if_neg hs] at hc
      exact List.mem_cons_of_mem a (ih c hc)

theorem foldStrip_mem :
    ∀ (ms : List String) (s : String),
      ∀ c ∈ (ms.foldl
        (fun cur p => if strStarts p cur then pyStrip (strDropLen p.data.length cur) else cur)
        s).data, c ∈ s.data := by
  intro ms
  induction ms with
  | nil => intro s c hc; exact hc
  | cons m rest ih =>
    intro s c hc
    rw [List.foldl_cons] at hc
    have hstep := ih (if strStarts m s then pyStrip (strDropLen m.data.length s) else s) c hc
    by_cases hm : strStarts m s = true
    · rw [if_pos hm] at hstep
      exact strDropLen_mem c (pyStrip_mem c hstep)
    · rw [if_neg hm] at hstep
      exact hstep

theorem stripHeadingMarkers_mem {s : String} :
    ∀ c ∈ (stripHeadingMarkers s).data, c ∈ s.data := by
  intro c hc
  exact foldStrip_mem stripMarkerList s c hc

theorem headingFix_ok {s : String} (hne : s ≠ "") :
    ∃ r, headingFix s = .ok r ∧ ∀ c ∈ r.data, c ∈ s.data := by
  obtain ⟨a, t, hd⟩ : ∃ a t, s.data = a :: t := by
    cases hs : s.data with
    | nil => exact absurd (String.ext hs) hne
    | cons a t => exact ⟨a, t, rfl⟩
  have heq : headingFix s =
      if (a.isDigit && strIn ". " s) = true then
        Except.ok (String.mk (dropThroughSep ". ".data (a :: t)))
      else Except.ok s := by
    unfold headingFix
    rw [hd]
  rw [heq]
  by_cases hcond : (a.isDigit && strIn ". " s) = true
  · rw [if_pos hcond]
    refine ⟨_, rfl, ?_⟩
    intro c hc
    rw [hd]
    exact dropAfterInfix_mem (a :: t) c hc
  · rw [if_neg hcond]
    exact ⟨s, rfl, fun c hc => hc⟩

/-! ### Totality of the scanning loop on backslash-free scan-safe lines -/

theorem scanStep_ok {st : ScanState} {line : String} (hinv : ScanInv st)
    (hnb : noBackslash line = true) (hsafe : scanSafeLine line = true) :
    ∃ st', scanStep st line = .ok st' ∧ ScanInv st' := by
  obtain ⟨hcur, hpts, hacc⟩ := hinv
  have hline' : noBackslash (pyStrip line) = true := noBackslash_pyStrip hnb
  unfold scanStep
  by_cases h0 : (pyStrip line == "") = true
  · rw [if_pos h0]
    exact ⟨st, rfl, hcur, hpts, hacc⟩
  · rw [if_neg h0]
    by_cases hhead : headingMarkers.any (fun p => strStarts p (pyStrip line)) = true
    · rw [if_pos hhead]
      have hstr : stripHeadingMarkers (pyStrip line) ≠ "" := by
        unfold scanSafeLine at hsafe
        rw [Bool.or_eq_true] at hsafe
        rcases hsafe with h | h
        · rw [hhead] at h
          cases h
        · simpa using h
      obtain ⟨r, hr, hrmem⟩ := headingFix_ok hstr
      rw [hr]
      refine ⟨_, rfl, ?_, ?_, ?_⟩
      · intro s hs
        injection hs with hs
        subst hs
        exact noBackslash_sub (fun c hc => stripHeadingMarkers_mem c (hrmem c hc)) hline'
      · intro p hp
        cases hp
      · intro e he
        by_cases hflush : (curTruthy st.cur && !st.pts.isEmpty) = true
        · rw [if_pos hflush] at he
          rcases List.mem_append.mp he with hmem | hmem
          · exact hacc e hmem
          · rw [List.mem_singleton] at hmem
            subst hmem
            constructor
            · rcases hc : st.cur with _ | c
              · rw [Bool.and_eq_true] at hflush
                rw [hc] at hflush
                cases hflush.1
              · simpa [hc] using hcur c hc
            · exact hpts
        · rw [if_neg hflush] at he
          exact hacc e he
    · rw [if_neg hhead]
      by_cases hbul : (strStarts "-" (pyStrip line) || strStarts "*" (pyStrip line)) = true
      · rw [if_pos hbul]
        by_cases hpt : ((pyStrip (pyLStrip ['-', '*', ' '] (pyStrip line)) != "") &&
            curTruthy st.cur) = true
        · rw [if_pos hpt]
          refine ⟨_, rfl, hcur, ?_, hacc⟩
          intro p hp
          rcases List.mem_append.mp hp with hmem | hmem
          · exact hpts p hmem
          · rw [List.mem_singleton] at hmem
            subst hmem
            refine noBackslash_sub ?_ hnb
            intro c hc
            exact pyStrip_mem c (pyLStrip_mem c (pyStrip_mem c hc))
        · rw [if_neg hpt]
          exact ⟨st, rfl, hcur, hpts, hacc⟩
      · rw [if_neg hbul]
        by_cases hct : curTruthy st.cur = true
        · rw [if_pos hct]
          refine ⟨_, rfl, hcur, ?_, hacc⟩
          intro p hp
          rcases List.mem_append.mp hp with hmem | hmem
          · exact hpts p hmem
          · rw [List.mem_singleton] at hmem
            subst hmem
            exact hline'
        · rw [if_neg hct]
          refine ⟨_, rfl, ?_, ?_, hacc⟩
          · intro s hs
            injection hs with hs
            subst hs
            exact hline'
          · intro p hp
            cases hp

theorem scanFold_ok :
    ∀ (lines : List String) (st : ScanState), ScanInv st →
      (∀ l ∈ lines, noBackslash l = true ∧ scanSafeLine l = true) →
      ∃ st', List.foldlM scanStep st lines = .ok st' ∧ ScanInv st' := by
  intro lines
  induction lines with
  | nil => intro st hinv _; exact ⟨st, rfl, hinv⟩
  | cons l rest ih =>
    intro st hinv hl
    obtain ⟨hnb, hsafe⟩ := hl l (List.mem_cons_self l rest)
    obtain ⟨st1, hst1, hinv1⟩ := scanStep_ok hinv hnb hsafe
    obtain ⟨st2, hst2, hinv2⟩ := ih st1 hinv1 (fun x hx => hl x (List.mem_cons_of_mem l hx))
    refine ⟨st2, ?_, hinv2⟩
    rw [List.foldlM_cons, hst1]
    simpa using hst2

/-- Goodness of a produced section row: all of its strings are
backslash-free, so the later normalization cannot raise. -/
theorem flushScan_good {st : ScanState} (hinv : ScanInv st) :
    ∀ e ∈ flushScan st, noBackslash e.1 = true ∧ ∀ p ∈ e.2, noBackslash p = true := by
  obtain ⟨hcur, hpts, hacc⟩ := hinv
  intro e he
  unfold flushScan at he
  by_cases hflush : (curTruthy st.cur && !st.pts.isEmpty) = true
  · rw [if_pos hflush] at he
    rcases List.mem_append.mp he with hmem | hmem
    · exact hacc e hmem
    · rw [List.mem_singleton] at hmem
      subst hmem
      refine ⟨?_, hpts⟩
      rcases hc : st.cur with _ | c
      · rw [Bool.and_eq_true, hc] at hflush
        cases hflush.1
      · simpa [hc] using hcur c hc
  · rw [if_neg hflush] at he
    exact hacc e he

theorem scannedSections_ok {lines : List String}
    (hl : ∀ l ∈ lines, noBackslash l = true ∧ scanSafeLine l = true) :
    ∃ out, scannedSections lines = .ok out ∧
      ∀ e ∈ out, noBackslash e.1 = true ∧ ∀ p ∈ e.2, noBackslash p = true := by
  have hinv0 : ScanInv ⟨Option.none, [], []⟩ := by
    refine ⟨?_, ?_, ?_⟩
    · intro s hs; cases hs
    · intro p hp; cases hp
    · intro e he; cases he
  obtain ⟨st, hst, hinv⟩ := scanFold_ok lines ⟨Option.none, [], []⟩ hinv0 hl
  refine ⟨flushScan st, ?_, flushScan_good hinv⟩
  unfold scannedSections scanFold
  rw [hst]
  rfl

theorem noBackslash_append {s t : String} (hs : noBackslash s = true)
    (ht : noBackslash t = true) : noBackslash (s ++ t) = true := by
  apply noBackslash_of_mem
  intro c hc
  rw [String.data_append, List.mem_append] at hc
  rcases hc with h | h
  · exact noBackslash_mem hs c h
  · exact noBackslash_mem ht c h

theorem fallbackGrouping_fold_good :
    ∀ (qs : List PyVal) (lines : List String)
      (acc : List (String × List String)),
      (∀ q ∈ qs, ∃ s, q = PyVal.str s ∧ noBackslash s = true) →
      (∀ l ∈ lines, noBackslash l = true) →
      (∀ e ∈ acc, noBackslash e.1 = true ∧ ∀ p ∈ e.2, noBackslash p = true) →
      ∃ out,
        (qs.foldlM (fun acc q =>
          match q with
          | PyVal.str question =>
            let rel := lines.filter (fun f => overlapQF question f)
            pure (if rel.isEmpty then acc
              else acc ++ [("Findings for: " ++ question, rel)])
          | _ => Except.error PyErr.attributeError) acc) = .ok out ∧
        ∀ e ∈ out, noBackslash e.1 = true ∧ ∀ p ∈ e.2, noBackslash p = true := by
  intro qs
  induction qs with
  | nil => intro lines acc _ _ hacc; exact ⟨acc, rfl, hacc⟩
  | cons q rest ih =>
    intro lines acc hqs hlines hacc
    obtain ⟨s, rfl, hsnb⟩ := hqs q (List.mem_cons_self q rest)
    rw [List.foldlM_cons]
    have hstep :
        ∀ e ∈ (if (lines.filter (fun f => overlapQF s f)).isEmpty then acc
            else acc ++ [("Findings for: " ++ s, lines.filter (fun f => overlapQF s f))]),
          noBackslash e.1 = true ∧ ∀ p ∈ e.2, noBackslash p = true := by
      by_cases hrel : (lines.filter (fun f => overlapQF s f)).isEmpty = true
      · rw [if_pos hrel]; exact hacc
      · rw [if_neg hrel]
        intro e he
        rcases List.mem_append.mp he with hmem | hmem
        · exact hacc e hmem
        · rw [List.mem_singleton] at hmem
          subst hmem
          refine ⟨noBackslash_append (by decide) hsnb, ?_⟩
          intro p hp
          exact hlines p ((List.filter_sublist _).mem hp)
    obtain ⟨out, hout, hgood⟩ := ih lines _
      (fun x hx => hqs x (List.mem_cons_of_mem _ hx)) hlines hstep
    refine ⟨out, ?_, hgood⟩
    simpa using hout

theorem fallbackGrouping_ok {qta : PyVal} {lines : List String}
    (hq : strListNoBack qta = true) (hlines : ∀ l ∈ lines, noBackslash l = true) :
    ∃ out, fallbackGrouping qta lines = .ok out ∧
      ∀ e ∈ out, noBackslash e.1 = true ∧ ∀ p ∈ e.2, noBackslash p = true := by
  unfold strListNoBack at hq
  rcases qta with _ | _ | _ | _ | qs | _ <;> try cases hq
  have hqs : ∀ q ∈ qs, ∃ s, q = PyVal.str s ∧ noBackslash s = true := by
    intro q hqmem
    have := List.all_eq_true.mp hq q hqmem
    rcases q with _ | _ | _ | s | _ | _ <;> try cases this
    exact ⟨s, rfl, this⟩
  obtain ⟨out, hout, hgood⟩ :=
    fallbackGrouping_fold_good qs lines [] hqs hlines (fun e he => by cases he)
  refine ⟨out, ?_, hgood⟩
  unfold fallbackGrouping
  rw [show pyIter (PyVal.list qs) = .ok qs from rfl]
  simpa using hout

theorem structureStrFindings_ok {qta : PyVal} {lines : List String}
    (hq : strListNoBack qta = true)
    (hl : ∀ l ∈ lines, noBackslash l = true ∧ scanSafeLine l = true) :
    ∃ out, structureStrFindings qta lines = .ok out ∧
      ∀ e ∈ out, noBackslash e.1 = true ∧ ∀ p ∈ e.2, noBackslash p = true := by
  obtain ⟨scanned, hscan, hscangood⟩ := scannedSections_ok hl
  have hlinesnb : ∀ l ∈ lines, noBackslash l = true := fun l hl' => (hl l hl').1
  have hKF : ∀ e ∈ ([("Key Findings", lines)] : List (String × List String)),
      noBackslash e.1 = true ∧ ∀ p ∈ e.2, noBackslash p = true := by
    intro e he
    rw [List.mem_singleton] at he
    subst he
    refine ⟨?_, hlinesnb⟩
    show noBackslash "Key Findings" = true
    decide
  unfold structureStrFindings
  rw [hscan]
  suffices h : ∃ out,
      (if (scanned.isEmpty && pyTruthy qta) = true then
        (do
          let y ← fallbackGrouping qta lines
          pure (if y.isEmpty = true then [("Key Findings", lines)] else y) :
          Except PyErr (List (String × List String)))
      else pure (if scanned.isEmpty = true then [("Key Findings", lines)] else scanned)) =
        .ok out ∧
      ∀ e ∈ out, noBackslash e.1 = true ∧ ∀ p ∈ e.2, noBackslash p = true by
    exact h
  by_cases hcase : (scanned.isEmpty && pyTruthy qta) = true
  · obtain ⟨fb, hfb, hfbgood⟩ := fallbackGrouping_ok hq hlinesnb
    rw [if_pos hcase]
    by_cases hfbe : fb = []
    · subst hfbe
      refine ⟨[("Key Findings", lines)], ?_, hKF⟩
      rw [hfb]
      rfl
    · have hne : fb.isEmpty = false := by simpa using hfbe
      refine ⟨fb, ?_, hfbgood⟩
      rw [hfb]
      show pure (if fb.isEmpty = true then [("Key Findings", lines)] else fb) = Except.ok fb
      rw [hne]
      rfl
  · rw [if_neg hcase]
    by_cases hse : scanned = []
    · subst hse
      exact ⟨[("Key Findings", lines)], rfl, hKF⟩
    · have hne : scanned.isEmpty = false := by simpa using hse
      refine ⟨scanned, ?_, hscangood⟩
      rw [show scanned.isEmpty = false from hne]
      rfl

/-! ### Totality of the post-processing stages -/

theorem mapM_ok_of_all {α β : Type} (f : α → Except PyErr β) :
    ∀ xs : List α, (∀ x ∈ xs, ∃ y, f x = .ok y) → ∃ ys, xs.mapM f = .ok ys := by
  intro xs
  induction xs with
  | nil => intro _; exact ⟨[], rfl⟩
  | cons x rest ih =>
    intro h
    obtain ⟨y, hy⟩ := h x (List.mem_cons_self x rest)
    obtain ⟨ys, hys⟩ := ih (fun a ha => h a (List.mem_cons_of_mem x ha))
    refine ⟨y :: ys, ?_⟩
    rw [List.mapM_cons, hy, hys]
    rfl

theorem cleanTextPy_str_ok {s : String} (h : noBackslash s = true) :
    ∃ t, cleanTextPy (.str s) = .ok t := by
  obtain ⟨t, ht⟩ := cleanText_total h
  exact ⟨t, ht⟩

theorem bind_ok_cong {α β : Type} {x : Except PyErr α} {a : α} (f : α → Except PyErr β)
    (h : x = .ok a) : (x >>= f) = f a := by
  rw [h]
  rfl

theorem cleanFinding_ok_row {sec : String} {pts : List String}
    (h1 : noBackslash sec = true) (h2 : ∀ p ∈ pts, noBackslash p = true) :
    ∃ r, cleanFinding (.dict [("section", .str sec), ("points", .list (pts.map PyVal.str))]) =
      .ok r := by
  obtain ⟨t, ht⟩ := cleanText_total h1
  obtain ⟨cps, hcps⟩ := mapM_ok_of_all cleanTextPy (pts.map PyVal.str) (by
    intro x hx
    rw [List.mem_map] at hx
    obtain ⟨p, hp, rfl⟩ := hx
    exact cleanTextPy_str_ok (h2 p hp))
  have h0 : cleanFinding
      (.dict [("section", .str sec), ("points", .list (pts.map PyVal.str))]) =
      (cleanText sec >>= fun sec' =>
        ((pts.map PyVal.str).mapM cleanTextPy >>= fun pts1 =>
          pure (if (pts1.filter (fun p => pyStrip p != "")).isEmpty then Option.none
            else some (sec', pts1.filter (fun p => pyStrip p != ""))))) := rfl
  rw [h0, bind_ok_cong _ ht, bind_ok_cong _ hcps]
  exact ⟨_, rfl⟩

theorem cleanQuestions_ok {qv : PyVal} (h : strListNoBack qv = true) :
    ∃ r, cleanQuestions qv = .ok r := by
  unfold strListNoBack at h
  rcases qv with _ | _ | _ | _ | qs | _ <;> try cases h
  obtain ⟨cqs, hcqs⟩ := mapM_ok_of_all cleanTextPy qs (by
    intro x hx
    have := List.all_eq_true.mp h x hx
    rcases x with _ | _ | _ | s | _ | _ <;> try cases this
    exact cleanTextPy_str_ok this)
  have h0 : cleanQuestions (PyVal.list qs) =
      (qs.mapM cleanTextPy >>= fun cq =>
        pure (cq.filter (fun q => pyStrip q != ""))) := rfl
  rw [h0, bind_ok_cong _ hcqs]
  exact ⟨_, rfl⟩

theorem lookupKey_of_any {kvs : List (String × PyVal)} {k : String}
    (h : kvs.any (fun kv => kv.1 == k) = true) : ∃ w, lookupKey kvs k = some w := by
  unfold lookupKey
  rcases hf : kvs.find? (fun kv => kv.1 == k) with _ | kv
  · rw [List.any_eq_true] at h
    obtain ⟨kv, hkv, hp⟩ := h
    have : (kvs.find? (fun kv => kv.1 == k)).isSome = true :=
      List.find?_isSome.mpr ⟨kv, hkv, hp⟩
    rw [hf] at this
    cases this
  · rw [hf]
    exact ⟨kv.2, rfl⟩

theorem pySetItem_dict_ok (kvs : List (String × PyVal)) (k : String) (v : PyVal) :
    ∃ r, pySetItem (.dict kvs) k v = .ok r := by
  have h0 : pySetItem (.dict kvs) k v =
      (if kvs.any (fun kv => kv.1 == k) then
        Except.ok (.dict (kvs.map (fun kv => if kv.1 == k then (kv.1, v) else kv)))
      else Except.ok (.dict (kvs ++ [(k, v)]))) := rfl
  rw [h0]
  by_cases h : kvs.any (fun kv => kv.1 == k) = true
  · rw [if_pos h]
    exact ⟨_, rfl⟩
  · rw [if_neg h]
    exact ⟨_, rfl⟩

theorem updateMetadataRole_ok {m : PyVal} (h : isDictVal m = true) :
    ∃ r, updateMetadataRole m = .ok r := by
  rcases m with _ | _ | _ | _ | _ | kvs <;> try cases h
  have h0 : updateMetadataRole (PyVal.dict kvs) =
      (if kvs.any (fun kv => kv.1 == "round") then
        (pyGetItem (PyVal.dict kvs) (.str "round") >>= fun r =>
          pySetItem (PyVal.dict kvs) "role"
            (.str (if pyEq r (.int 1) then "Initial Researcher"
              else if pyEq r (.int 2) then "Critical Analyst"
              else "Practical Implementer")))
      else pure (PyVal.dict kvs)) := rfl
  rw [h0]
  by_cases hr : kvs.any (fun kv => kv.1 == "round") = true
  · rw [if_pos hr]
    obtain ⟨w, hw⟩ := lookupKey_of_any hr
    have hget : pyGetItem (PyVal.dict kvs) (.str "round") = .ok w := by
      have h1 : pyGetItem (PyVal.dict kvs) (.str "round") =
          (match lookupKey kvs "round" with
           | some w0 => Except.ok w0
           | Option.none => Except.error PyErr.keyError) := rfl
      rw [h1, hw]
    rw [bind_ok_cong _ hget]
    exact pySetItem_dict_ok kvs "role" _
  · rw [if_neg hr]
    exact ⟨.dict kvs, rfl⟩

theorem pyDictGet_dict (kvs : List (String × PyVal)) (k : String) (dflt : PyVal) :
    pyDictGet (.dict kvs) k dflt = .ok ((lookupKey kvs k).getD dflt) := by
  have h0 : pyDictGet (.dict kvs) k dflt =
      (match lookupKey kvs k with
       | some w => Except.ok w
       | Option.none => Except.ok dflt) := rfl
  rw [h0]
  cases lookupKey kvs k <;> rfl

theorem structureFindingsVal_ok {qta : PyVal} {fs : List PyVal}
    (hq : strListNoBack qta = true)
    (hfs : fs.all (fun f =>
        match f with
        | PyVal.str s => noBackslash s && scanSafeLine s
        | _ => false) = true) :
    ∃ structured : List (String × List String), structureFindingsVal qta (.list fs) =
        .ok (PyVal.list (structured.map (fun sp =>
          PyVal.dict [("section", .str sp.1), ("points", .list (sp.2.map PyVal.str))]))) ∧
      ∀ e ∈ structured, noBackslash e.1 = true ∧ ∀ p ∈ e.2, noBackslash p = true := by
  have hstr : fs.all isStrVal = true := by
    rw [List.all_eq_true] at hfs ⊢
    intro f hf
    have := hfs f hf
    rcases f with _ | _ | _ | s | _ | _ <;> try cases this
    rfl
  have hlines : ∀ l ∈ fs.map strOf, noBackslash l = true ∧ scanSafeLine l = true := by
    intro l hl
    rw [List.mem_map] at hl
    obtain ⟨f, hf, rfl⟩ := hl
    have := List.all_eq_true.mp hfs f hf
    rcases f with _ | _ | _ | s | _ | _ <;> try cases this
    rw [Bool.and_eq_true] at this
    exact this
  obtain ⟨out, hout, hgood⟩ := structureStrFindings_ok hq hlines
  refine ⟨out, ?_, hgood⟩
  have h0 : structureFindingsVal qta (.list fs) =
      (if fs.all isStrVal then
        (structureStrFindings qta (fs.map strOf) >>= fun structured =>
          pure (PyVal.list (structured.map (fun sp =>
            PyVal.dict [("section", .str sp.1), ("points", .list (sp.2.map PyVal.str))]))))
      else if fs.all isDictVal then pure (PyVal.list (fs.map backfillDictFinding))
      else pure (.list fs)) := rfl
  rw [h0, if_pos hstr, bind_ok_cong _ hout]
  rfl

theorem cleanStage_ok {structured : List (String × List String)}
    (hgood : ∀ e ∈ structured, noBackslash e.1 = true ∧ ∀ p ∈ e.2, noBackslash p = true) :
    ∃ cleaned, cleanStage (PyVal.list (structured.map (fun sp =>
        PyVal.dict [("section", .str sp.1), ("points", .list (sp.2.map PyVal.str))]))) =
      .ok cleaned := by
  obtain ⟨rows, hrows⟩ := mapM_ok_of_all cleanFinding
    (structured.map (fun sp =>
      PyVal.dict [("section", .str sp.1), ("points", .list (sp.2.map PyVal.str))])) (by
    intro x hx
    rw [List.mem_map] at hx
    obtain ⟨e, he, rfl⟩ := hx
    exact cleanFinding_ok_row (hgood e he).1 (hgood e he).2)
  have h0 : cleanStage (PyVal.list (structured.map (fun sp =>
      PyVal.dict [("section", .str sp.1), ("points", .list (sp.2.map PyVal.str))]))) =
      ((structured.map (fun sp =>
        PyVal.dict [("section", .str sp.1), ("points", .list (sp.2.map PyVal.str))])).mapM
          cleanFinding >>= fun cleanedOpt =>
        pure (cleanedOpt.filterMap id)) := rfl
  rw [h0, bind_ok_cong _ hrows]
  exact ⟨_, rfl⟩

/-- Claim C1 (corrected), amended: the parser returns the well-formed
four-field record without raising (a) for every string input that fails
JSON decoding and normalizes without error — the opaque-text fallback —
and (b) for every mapping input of well-typed shape (`findings` a list of
backslash-free scan-safe strings, `questions`/`questions_to_answer` lists
of backslash-free strings, `metadata` a mapping).  Outside this domain it
can raise (see the counterexample). -/
theorem c1_amended :
    (∀ (loads : String → Except Unit PyVal) (s t : String),
      loads s = .error () → cleanText s = .ok t →
      processAgentResponse loads (.str s) =
        .ok ⟨[("Key Findings", [t])], [], .dict [], .list []⟩) ∧
    (∀ (loads : String → Except Unit PyVal) (d : List (String × PyVal)),
      wellTypedResponse d = true →
      ∃ r, processAgentResponse loads (.dict d) = .ok r) := by
  constructor
  · intro loads s t hl ht
    unfold processAgentResponse
    dsimp only
    rw [hl]
    rw [ht]
    rfl
  · intro loads d hwt
    unfold wellTypedResponse at hwt
    simp only [Bool.and_eq_true] at hwt
    obtain ⟨⟨⟨hqta, hfv⟩, hqv⟩, hmv⟩ := hwt
    rcases hfvshape : (lookupKey d "findings").getD (.list []) with _ | _ | _ | _ | fs | _ <;>
      rw [hfvshape] at hfv <;> try cases hfv
    have h0 : processAgentResponse loads (.dict d) =
        (pyDictGet (.dict d) "questions_to_answer" (.list []) >>= fun qta =>
          pyDictGet (.dict d) "findings" (.list []) >>= fun findingsv =>
          structureFindingsVal qta findingsv >>= fun findingsv2 =>
          pyDictGet (.dict d) "questions" (.list []) >>= fun qv =>
          pyDictGet (.dict d) "metadata" (.dict []) >>= fun mv =>
          cleanStage findingsv2 >>= fun cleaned =>
          cleanQuestions qv >>= fun cq =>
          updateMetadataRole mv >>= fun mv2 =>
          pure ⟨cleaned, cq, mv2, qta⟩) := rfl
    rw [h0, bind_ok_cong _ (pyDictGet_dict d "questions_to_answer" (.list [])),
      bind_ok_cong _ (pyDictGet_dict d "findings" (.list [])), hfvshape]
    obtain ⟨structured, hstructeq, hstructgood⟩ := structureFindingsVal_ok hqta hfv
    rw [bind_ok_cong _ hstructeq,
      bind_ok_cong _ (pyDictGet_dict d "questions" (.list [])),
      bind_ok_cong _ (pyDictGet_dict d "metadata" (.dict []))]
    obtain ⟨cleaned, hclean⟩ := cleanStage_ok hstructgood
    rw [bind_ok_cong _ hclean]
    obtain ⟨cq, hcq⟩ := cleanQuestions_ok hqv
    rw [bind_ok_cong _ hcq]
    obtain ⟨mv2, hmv2⟩ := updateMetadataRole_ok hmv
    rw [bind_ok_cong _ hmv2]
    exact ⟨_, rfl⟩

theorem c1_witness :
    (loads0 "garbage" = .error () ∧ cleanText "garbage" = .ok "garbage" ∧
      processAgentResponse loads0 (.str "garbage") =
        .ok ⟨[("Key Findings", ["garbage"])], [], .dict [], .list []⟩) ∧
    (wellTypedResponse respWithSection = true ∧
      ∃ r, processAgentResponse loads0 (.dict respWithSection) = .ok r) :=
  ⟨⟨rfl, rfl, c1_amended.1 loads0 "garbage" "garbage" rfl rfl⟩,
   ⟨rfl, c1_amended.2 loads0 respWithSection rfl⟩⟩

/-! ## Claim C9 (Fallback A grouping) -/

/-- Claim C9, counterexample: the claim as stated omits Fallback A's own
precondition that the line scan produced no sections.  In
`respWithSection`, the line `"- alpha beta"` overlaps the question
`"alpha"` and `questions_to_answer` is present, yet because
`"Section: Intro"` opens a section, no synthetic
`"Findings for: …"` section is created. -/
theorem c9_counterexample :
    overlapQF "alpha" "- alpha beta" = true ∧
    processAgentResponse loads0 (.dict respWithSection) =
      .ok ⟨[("Intro", ["alpha beta", "gamma alpha"])], [], .dict [], .list [.str "alpha"]⟩ ∧
    ([("Intro", ["alpha beta", "gamma alpha"])] : List (String × List String)).all
      (fun sp => !(strStarts "Findings for" sp.1)) = true :=
  ⟨rfl, rfl, rfl⟩

theorem fallback_fold_mono {lines : List String} :
    ∀ (qs : List PyVal) (acc res : List (String × List String)),
      (qs.foldlM (fun acc q =>
        match q with
        | PyVal.str question =>
          let rel := lines.filter (fun f => overlapQF question f)
          pure (if rel.isEmpty then acc
            else acc ++ [("Findings for: " ++ question, rel)])
        | _ => Except.error PyErr.attributeError) acc) = .ok res →
      ∀ e ∈ acc, e ∈ res := by
  intro qs
  induction qs with
  | nil =>
    intro acc res h e he
    injection h with h
    rw [← h]
    exact he
  | cons x rest ih =>
    intro acc res h e he
    rw [List.foldlM_cons] at h
    rcases x with _ | b | n | question | xs | kvs
    · exact Except.noConfusion h
    · exact Except.noConfusion h
    · exact Except.noConfusion h
    · refine ih
        (if (lines.filter (fun f => overlapQF question f)).isEmpty then acc
          else acc ++ [("Findings for: " ++ question,
            lines.filter (fun f => overlapQF question f))]) res h e ?_
      by_cases hrel : (lines.filter (fun f => overlapQF question f)).isEmpty = true
      · rw [if_pos hrel]
        exact he
      · rw [if_neg hrel]
        exact List.mem_append_left _ he
    · exact Except.noConfusion h
    · exact Except.noConfusion h

theorem fallback_fold_mem {lines : List String} {q : String} :
    ∀ (qs : List PyVal) (acc res : List (String × List String)),
      (qs.foldlM (fun acc q =>
        match q with
        | PyVal.str question =>
          let rel := lines.filter (fun f => overlapQF question f)
          pure (if rel.isEmpty then acc
            else acc ++ [("Findings for: " ++ question, rel)])
        | _ => Except.error PyErr.attributeError) acc) = .ok res →
      PyVal.str q ∈ qs →
      (lines.filter (fun f => overlapQF q f)).isEmpty = false →
      ("Findings for: " ++ q, lines.filter (fun f => overlapQF q f)) ∈ res := by
  intro qs
  induction qs with
  | nil =>
    intro acc res _ hq _
    cases hq
  | cons x rest ih =>
    intro acc res h hq hrel
    rw [List.foldlM_cons] at h
    rcases List.mem_cons.mp hq with hx | hmem
    · rw [← hx] at h
      have h2 : (rest.foldlM (fun acc q =>
          match q with
          | PyVal.str question =>
            let rel := lines.filter (fun f => overlapQF question f)
            pure (if rel.isEmpty then acc
              else acc ++ [("Findings for: " ++ question, rel)])
          | _ => Except.error PyErr.attributeError)
          (if (lines.filter (fun f => overlapQF q f)).isEmpty then acc
            else acc ++ [("Findings for: " ++ q,
              lines.filter (fun f => overlapQF q f))])) = .ok res := h
      rw [hrel] at h2
      simp only [if_false] at h2
      refine fallback_fold_mono rest _ res h2 _ ?_
      exact List.mem_append_right _ (List.mem_singleton_self _)
    · rcases x with _ | b | n | question | xs | kvs
      · exact Except.noConfusion h
      · exact Except.noConfusion h
      · exact Except.noConfusion h
      · exact ih
          (if (lines.filter (fun f => overlapQF question f)).isEmpty then acc
            else acc ++ [("Findings for: " ++ question,
              lines.filter (fun f => overlapQF question f))]) res h hmem hrel
      · exact Except.noConfusion h
      · exact Except.noConfusion h

/-- Claim C9 (corrected), amended: with Fallback A's own precondition
added — the line scan produced no sections — every response whose
`questions_to_answer` contains `q` and whose flat findings contain a line
overlapping `q`'s vocabulary yields, at the structuring stage (before
normalization), a synthetic section `"Findings for: q"` holding that
line. -/
theorem c9_amended (qvals : List PyVal) (lines : List String) (q line : String)
    (out : List (String × List String))
    (hscan : scannedSections lines = .ok [])
    (hq : PyVal.str q ∈ qvals)
    (hline : line ∈ lines)
    (hover : overlapQF q line = true)
    (hout : structureStrFindings (.list qvals) lines = .ok out) :
    ∃ pts, ("Findings for: " ++ q, pts) ∈ out ∧ line ∈ pts := by
  unfold structureStrFindings at hout
  rw [hscan] at hout
  have htruthy : pyTruthy (PyVal.list qvals) = true := by
    have : qvals ≠ [] := List.ne_nil_of_mem hq
    simpa [pyTruthy] using this
  have hcond : (([] : List (String × List String)).isEmpty && pyTruthy (PyVal.list qvals)) =
      true := by
    rw [htruthy]
    rfl
  have hout2 : (fallbackGrouping (PyVal.list qvals) lines >>= fun structured =>
      pure (if structured.isEmpty then [("Key Findings", lines)] else structured)) =
      .ok out := by
    have hstep : (do
        let structured ←
          if (([] : List (String × List String)).isEmpty && pyTruthy (PyVal.list qvals)) = true
          then fallbackGrouping (PyVal.list qvals) lines
          else pure []
        pure (if structured.isEmpty then [("Key Findings", lines)] else structured) :
        Except PyErr (List (String × List String))) = .ok out := hout
    rw [if_pos hcond] at hstep
    exact hstep
  rcases hfb : fallbackGrouping (PyVal.list qvals) lines with e | fb
  · rw [hfb] at hout2
    cases hout2
  · rw [hfb] at hout2
    have hrel : (lines.filter (fun f => overlapQF q f)).isEmpty = false := by
      have : line ∈ lines.filter (fun f => overlapQF q f) :=
        List.mem_filter.mpr ⟨hline, hover⟩
      rcases hl : lines.filter (fun f => overlapQF q f) with _ | _
      · rw [hl] at this
        cases this
      · rfl
    have hfb2 : (qvals.foldlM (fun acc q =>
        match q with
        | PyVal.str question =>
          let rel := lines.filter (fun f => overlapQF question f)
          pure (if rel.isEmpty then acc
            else acc ++ [("Findings for: " ++ question, rel)])
        | _ => Except.error PyErr.attributeError) []) = .ok fb := by
      have h0 : fallbackGrouping (PyVal.list qvals) lines =
          (qvals.foldlM (fun acc q =>
            match q with
            | PyVal.str question =>
              let rel := lines.filter (fun f => overlapQF question f)
              pure (if rel.isEmpty then acc
                else acc ++ [("Findings for: " ++ question, rel)])
            | _ => Except.error PyErr.attributeError) []) := rfl
      rw [← h0, hfb]
    have hmem := fallback_fold_mem qvals [] fb hfb2 hq hrel
    have hfbne : fb.isEmpty = false := by
      rcases hfb3 : fb with _ | _
      · rw [hfb3] at hmem
        cases hmem
      · rfl
    have hout3 : out = fb := by
      have : (pure (if fb.isEmpty then [("Key Findings", lines)] else fb) :
          Except PyErr (List (String × List String))) = .ok out := hout2
      rw [hfbne] at this
      injection this with h
      rw [← h]
      rfl
    rw [hout3]
    exact ⟨lines.filter (fun f => overlapQF q f), hmem,
      List.mem_filter.mpr ⟨hline, hover⟩⟩

theorem c9_witness :
    scannedSections ["- alpha beta"] = .ok [] ∧
    overlapQF "alpha" "- alpha beta" = true ∧
    ∃ pts, ("Findings for: alpha", pts) ∈
        [("Findings for: alpha", ["- alpha beta"])] ∧ "- alpha beta" ∈ pts :=
  ⟨rfl, rfl,
    c9_amended [.str "alpha"] ["- alpha beta"] "alpha" "- alpha beta"
      [("Findings for: alpha", ["- alpha beta"])] rfl
      (List.mem_singleton_self _) (List.mem_singleton_self _) rfl rfl⟩

/-! ## Claim C2 (context retriever errors are propagated?) -/

/-- Claim C2, counterexample: store and parse errors inside
`get_relevant_context` are *not* propagated.  A raised store exception is
swallowed by the blanket `except` (which only logs), so the function
falls off the end and returns `None`; a JSON parse error returns a
normal-looking *empty bundle*.  Neither outcome is a caller-visible
exception. -/
theorem c2_counterexample :
    getRelevantContext (.error .runtimeError) loads0 = .ok Option.none ∧
    getRelevantContext (.ok [.str "not valid json"]) loads0 = .ok (some ⟨[], []⟩) ∧
    ∀ e, getRelevantContext (.error .runtimeError) loads0 ≠ .error e :=
  ⟨rfl, rfl, fun _ h => Except.noConfusion h⟩

/-- Claim C2 (corrected), amended: `get_relevant_context` never lets an
exception reach the caller: it always returns normally — `None` when any
exception was raised by the store call or the processing, and the empty
bundle when the store payload fails JSON decoding.  The orchestrator must
instead cope with the `None` return (which it does not — see C10). -/
theorem c2_amended (kbRun : Except PyErr (List PyVal))
    (loads : String → Except Unit PyVal) :
    (∃ v, getRelevantContext kbRun loads = .ok v) ∧
    (∀ e, kbRun = .error e → getRelevantContext kbRun loads = .ok Option.none) ∧
    (∀ res s, kbRun = .ok res → res.getLast? = some (.str s) → loads s = .error () →
      getRelevantContext kbRun loads = .ok (some ⟨[], []⟩)) := by
  refine ⟨?_, ?_, ?_⟩
  · rcases hx : (do
        let res ← kbRun
        grcTryBody res loads : Except PyErr (Option CtxBundle)) with e | r
    · exact ⟨Option.none, by unfold getRelevantContext; rw [hx]⟩
    · exact ⟨r, by unfold getRelevantContext; rw [hx]⟩
  · intro e he
    subst he
    rfl
  · intro res s hr hl hload
    subst hr
    unfold getRelevantContext
    have hbody : (do
        let r ← (Except.ok res : Except PyErr (List PyVal))
        grcTryBody r loads : Except PyErr (Option CtxBundle)) = grcTryBody res loads := rfl
    rw [hbody]
    unfold grcTryBody
    rw [hl]
    dsimp only
    rw [hload]

theorem c2_witness :
    getRelevantContext (.error .keyError) loads0 = .ok Option.none :=
  (c2_amended (.error .keyError) loads0).2.1 .keyError rfl

/-! ## Claim C5 (question backfill) -/

theorem grcTryBody_not_str {v : PyVal} (h : isStrVal v = false)
    (loads : String → Except Unit PyVal) :
    grcTryBody [v] loads = ((fun b => some b) <$> grcMain v) := by
  rcases v with _ | b | n | s | xs | kvs
  · rfl
  · rfl
  · rfl
  · simp [isStrVal] at h
  · rfl
  · rfl

/-- Claim C5 (confirmed): whenever the store response yields fewer than 3
unique prior questions (the deduplicated cleaned list `uq` has length
below 3) and the stages complete, `get_relevant_context` returns a bundle
whose `previous_questions` is exactly `uq` padded with the three fixed
generic questions — in particular at least 3 questions. -/
theorem c5_theorem (v : PyVal) (loads : String → Except Unit PyVal)
    (fs : List PyVal) (uq : List String)
    (hnotstr : isStrVal v = false)
    (hfs : grcFindingsStage v = .ok fs)
    (huq : grcQuestionsStage v = .ok uq)
    (hlt : uq.length < 3) :
    getRelevantContext (.ok [v]) loads = .ok (some ⟨uq ++ genericQuestions, fs⟩) ∧
    3 ≤ (uq ++ genericQuestions).length := by
  constructor
  · have h0 : grcMain v =
        (grcFindingsStage v >>= fun fs' =>
          grcQuestionsStage v >>= fun uq' =>
          pure ⟨if uq'.length < 3 then uq' ++ genericQuestions else uq', fs'⟩) := rfl
    have hmain : grcMain v = .ok ⟨uq ++ genericQuestions, fs⟩ := by
      rw [h0, bind_ok_cong _ hfs, bind_ok_cong _ huq, if_pos hlt]
      rfl
    have h2 : grcTryBody [v] loads = .ok (some ⟨uq ++ genericQuestions, fs⟩) := by
      rw [grcTryBody_not_str hnotstr, hmain]
      rfl
    unfold getRelevantContext
    have h3 : (do
        let r ← (Except.ok [v] : Except PyErr (List PyVal))
        grcTryBody r loads : Except PyErr (Option CtxBundle)) = grcTryBody [v] loads := rfl
    rw [h3, h2]
  · rw [List.length_append]
    have : genericQuestions.length = 3 := rfl
    omega

theorem c5_witness :
    getRelevantContext (.ok [.dict [("questions", .list [.str "One question"])]]) loads0 =
      .ok (some ⟨["One question"] ++ genericQuestions, []⟩) ∧
    3 ≤ (["One question"] ++ genericQuestions).length :=
  c5_theorem (.dict [("questions", .list [.str "One question"])]) loads0 [] ["One question"]
    rfl rfl rfl (by decide)

/-! ## Claim C8 (findings quality filter) -/

theorem grcFilterStep_kept {st : List String × List PyVal} {g : PyVal}
    {st1 : List String × List PyVal} (hstep : grcFilterStep st g = .ok st1) :
    ∀ f ∈ st1.2, f ∈ st.2 ∨
      ∃ ptsv n, pyDictGet f "points" (.list []) = .ok ptsv ∧ pyLen ptsv = .ok n ∧
        2 ≤ n ∧ hasLongPoint ptsv = .ok true := by
  have h0 : grcFilterStep st g =
      (pyDictGet g "section" (.str "") >>= fun secv =>
        pyLowerAttr secv >>= fun sec =>
        pyDictGet g "points" (.list []) >>= fun ptsv =>
        if sectionDup sec st.1 then pure st
        else (pyLen ptsv >>= fun n =>
          if n < 2 then pure st
          else (hasLongPoint ptsv >>= fun long =>
            if long then pure (st.1 ++ [sec], st.2 ++ [g]) else pure st))) := rfl
  rw [h0] at hstep
  rcases hsecv : pyDictGet g "section" (.str "") with e | secv
  · rw [hsecv] at hstep
    exact Except.noConfusion hstep
  · rw [bind_ok_cong _ hsecv] at hstep
    rcases hsec : pyLowerAttr secv with e | sec
    · rw [hsec] at hstep
      exact Except.noConfusion hstep
    · rw [bind_ok_cong _ hsec] at hstep
      rcases hptsv : pyDictGet g "points" (.list []) with e | ptsv
      · rw [hptsv] at hstep
        exact Except.noConfusion hstep
      · rw [bind_ok_cong _ hptsv] at hstep
        by_cases hdup : sectionDup sec st.1 = true
        · rw [if_pos hdup] at hstep
          injection hstep with h
          subst h
          intro f hf
          exact Or.inl hf
        · rw [if_neg hdup] at hstep
          rcases hn : pyLen ptsv with e | n
          · rw [hn] at hstep
            exact Except.noConfusion hstep
          · rw [bind_ok_cong _ hn] at hstep
            by_cases hlt : n < 2
            · rw [if_pos hlt] at hstep
              injection hstep with h
              subst h
              intro f hf
              exact Or.inl hf
            · rw [if_neg hlt] at hstep
              rcases hlong : hasLongPoint ptsv with e | lg
              · rw [hlong] at hstep
                exact Except.noConfusion hstep
              · rw [bind_ok_cong _ hlong] at hstep
                by_cases hlg : lg = true
                · rw [if_pos hlg] at hstep
                  injection hstep with h
                  subst h
                  intro f hf
                  rcases List.mem_append.mp hf with hmem | hmem
                  · exact Or.inl hmem
                  · rw [List.mem_singleton] at hmem
                    subst hmem
                    subst hlg
                    exact Or.inr ⟨ptsv, n, hptsv, hn, by omega, hlong⟩
                · rw [if_neg hlg] at hstep
                  injection hstep with h
                  subst h
                  intro f hf
                  exact Or.inl hf

theorem grcFilterFold_inv :
    ∀ (items : List PyVal) (st st' : List String × List PyVal),
      items.foldlM grcFilterStep st = .ok st' →
      (∀ f ∈ st.2,
        ∃ ptsv n, pyDictGet f "points" (.list []) = .ok ptsv ∧ pyLen ptsv = .ok n ∧
          2 ≤ n ∧ hasLongPoint ptsv = .ok true) →
      ∀ f ∈ st'.2,
        ∃ ptsv n, pyDictGet f "points" (.list []) = .ok ptsv ∧ pyLen ptsv = .ok n ∧
          2 ≤ n ∧ hasLongPoint ptsv = .ok true := by
  intro items
  induction items with
  | nil =>
    intro st st' h hst
    injection h with h
    subst h
    exact hst
  | cons g rest ih =>
    intro st st' h hst
    rw [List.foldlM_cons] at h
    rcases hstep : grcFilterStep st g with e | st1
    · rw [hstep] at h
      exact Except.noConfusion h
    · rw [bind_ok_cong _ hstep] at h
      refine ih st1 st' h ?_
      intro f hf
      rcases grcFilterStep_kept hstep f hf with hmem | hkept
      · exact hst f hmem
      · exact hkept

theorem fmap_some_ok {x : Except PyErr CtxBundle} {b : CtxBundle}
    (h : ((fun b => some b) <$> x) = .ok (some b)) : x = .ok b := by
  rcases hx : x with e | r
  · rw [hx] at h
    exact Except.noConfusion h
  · rw [hx] at h
    injection h with h2
    injection h2 with h3
    rw [h3]

theorem grcMain_findings_kept {v : PyVal} {b : CtxBundle} (h : grcMain v = .ok b) :
    ∀ f ∈ b.relevant_findings,
      ∃ ptsv n, pyDictGet f "points" (.list []) = .ok ptsv ∧ pyLen ptsv = .ok n ∧
        2 ≤ n ∧ hasLongPoint ptsv = .ok true := by
  have h0 : grcMain v =
      (grcFindingsStage v >>= fun fs =>
        grcQuestionsStage v >>= fun uq =>
        pure ⟨if uq.length < 3 then uq ++ genericQuestions else uq, fs⟩) := rfl
  rw [h0] at h
  rcases hfs : grcFindingsStage v with e | fs
  · rw [hfs] at h
    exact Except.noConfusion h
  · rw [bind_ok_cong _ hfs] at h
    rcases huq : grcQuestionsStage v with e | uq
    · rw [huq] at h
      exact Except.noConfusion h
    · rw [bind_ok_cong _ huq] at h
      injection h with h2
      have hrel : b.relevant_findings = fs := by
        rw [← h2]
      unfold grcFindingsStage at hfs
      rcases hext : grcExtractFindings v with e | ext
      · rw [hext] at hfs
        exact Except.noConfusion hfs
      · rw [bind_ok_cong _ hext] at hfs
        unfold grcFilterFindings at hfs
        rcases hfold : ext.foldlM grcFilterStep ([], []) with e | st
        · rw [hfold] at hfs
          exact Except.noConfusion hfs
        · rw [bind_ok_cong _ hfold] at hfs
          injection hfs with h3
          intro f hf
          rw [hrel, ← h3] at hf
          exact grcFilterFold_inv ext ([], []) st hfold (fun f hf0 => by cases hf0) f hf

/-- Claim C8 (confirmed, stated positively): every finding present in a
returned context bundle's `relevant_findings` has a `points` value of
length at least 2 with at least one point whose stripped text exceeds 50
characters — equivalently, findings with fewer than 2 points or no long
point are excluded. -/
theorem c8_theorem (kbRun : Except PyErr (List PyVal))
    (loads : String → Except Unit PyVal) (b : CtxBundle) (f : PyVal)
    (hok : getRelevantContext kbRun loads = .ok (some b))
    (hmem : f ∈ b.relevant_findings) :
    ∃ ptsv n, pyDictGet f "points" (.list []) = .ok ptsv ∧ pyLen ptsv = .ok n ∧
      2 ≤ n ∧ hasLongPoint ptsv = .ok true := by
  unfold getRelevantContext at hok
  rcases hx : (do
      let res ← kbRun
      grcTryBody res loads : Except PyErr (Option CtxBundle)) with e | r
  · rw [hx] at hok
    injection hok with h
    exact Option.noConfusion h
  · rw [hx] at hok
    injection hok with h
    subst h
    rcases kbRun with e | res
    · exact Except.noConfusion hx
    · have hx2 : grcTryBody res loads = .ok (some b) := hx
      unfold grcTryBody at hx2
      rcases hlast : res.getLast? with _ | last
      · rw [hlast] at hx2
        exact Except.noConfusion hx2
      · rw [hlast] at hx2
        rcases last with _ | bb | nn | s | xs | kvs
        · exact grcMain_findings_kept (fmap_some_ok hx2) f hmem
        · exact grcMain_findings_kept (fmap_some_ok hx2) f hmem
        · exact grcMain_findings_kept (fmap_some_ok hx2) f hmem
        · rcases hld : loads s with u | v
          · have hx3 : (Except.ok (some (⟨[], []⟩ : CtxBundle)) :
                Except PyErr (Option CtxBundle)) = .ok (some b) := by
              rw [← hx2]
              dsimp only
              rw [hld]
            injection hx3 with h2
            injection h2 with h3
            rw [← h3] at hmem
            cases hmem
          · have hx3 : ((fun b => some b) <$> grcMain v) = .ok (some b) := by
              rw [← hx2]
              dsimp only
              rw [hld]
            exact grcMain_findings_kept (fmap_some_ok hx3) f hmem
        · exact grcMain_findings_kept (fmap_some_ok hx2) f hmem
        · exact grcMain_findings_kept (fmap_some_ok hx2) f hmem

theorem c8_witness :
    getRelevantContext (.ok [.dict [("findings", .list [goodFindingRow])]]) loads0 =
      .ok (some ⟨genericQuestions, [goodFindingRow]⟩) ∧
    ∃ ptsv n, pyDictGet goodFindingRow "points" (.list []) = .ok ptsv ∧
      pyLen ptsv = .ok n ∧ 2 ≤ n ∧ hasLongPoint ptsv = .ok true :=
  ⟨rfl,
    c8_theorem (.ok [.dict [("findings", .list [goodFindingRow])]]) loads0
      ⟨genericQuestions, [goodFindingRow]⟩ goodFindingRow rfl
      (List.mem_singleton_self _)⟩

/-! ## Claim C4 (the orchestrator's result shape) -/

/-- Claim C4 (confirmed): for every behaviour of the external
collaborators, `GroupChatOrchestrator.run` returns either the success
record — with `findings`, `questions`, and metadata carrying `run_id`,
`num_rounds = 3` and `final_topic` — or the error record
`\x7bstatus: error, message\x7d`; in both cases the call returns normally
(`Except.ok`), no exception escapes the top-level entry point. -/
theorem c4_theorem (env : Env) :
    (∃ fs qs ft, orchestratorRun env = .ok (.dict
      [("status", .str "success"), ("findings", .list fs), ("questions", .list qs),
       ("metadata", .dict [("run_id", .str env.runId), ("num_rounds", .int 3),
         ("final_topic", .str ft)])])) ∨
    (∃ msg, orchestratorRun env = .ok (.dict
      [("status", .str "error"), ("message", .str msg)])) := by
  unfold orchestratorRun
  cases hb : runBody env with
  | ok p =>
    obtain ⟨fs, qs, ct⟩ := p
    left
    exact ⟨fs.map findingToPy, qs.map PyVal.str, ct, rfl⟩
  | error e =>
    right
    exact ⟨pyErrMsg e, rfl⟩

/-! ## Claim C10 (empty retrieved findings abort the run) -/

/-- Claim C10 (confirmed): `create_agent_prompt` references
`previous_findings_text` in its returned f-string, but the variable is
only assigned under `if previous_findings:`; with an empty
`relevant_findings` list the call raises `NameError` (for the round-2
analyst and the round-3 synthesizer alike), the rounds 2-3 loop body then
propagates that exception, and the top-level handler turns it into the
`status: error` record — the round does not continue.  The last conjunct
shows a whole concrete run aborting this way in round 2. -/
theorem c10_theorem :
    (∀ (ct : String) (st : PyVal) (b : CtxBundle), b.relevant_findings = [] →
      createAgentPrompt ct st "analyst" (some b) = .error .nameError) ∧
    (∀ (ct : String) (st : PyVal) (b : CtxBundle), b.relevant_findings = [] →
      createAgentPrompt ct st "synthesizer" (some b) = .error .nameError) ∧
    (∀ (loads : String → Except Unit PyVal) (ct : String) (st : PyVal)
      (kbQuery : Except PyErr (List PyVal)) (aRes : Except PyErr (List PyVal))
      (inf : Except PyErr PyVal) (kbW : Except PyErr PyVal)
      (allF : List (String × List String)) (allQ : List String) (b : CtxBundle),
      getRelevantContext kbQuery loads = .ok (some b) → b.relevant_findings = [] →
      runRound loads ct st "synthesizer" kbQuery aRes inf kbW allF allQ =
        .error .nameError) ∧
    (∀ (env : Env) (e : PyErr), runBody env = .error e →
      orchestratorRun env = .ok (.dict
        [("status", .str "error"), ("message", .str (pyErrMsg e))])) ∧
    orchestratorRun envRound2Empty = .ok (.dict
      [("status", .str "error"), ("message", .str "NameError")]) := by
  have hprompt : ∀ (ct : String) (st : PyVal) (name : String) (b : CtxBundle),
      b.relevant_findings = [] →
      createAgentPrompt ct st name (some b) = .error .nameError := by
    intro ct st name b hb
    unfold createAgentPrompt
    dsimp only
    rw [hb]
    rfl
  refine ⟨fun ct st b hb => hprompt ct st "analyst" b hb,
    fun ct st b hb => hprompt ct st "synthesizer" b hb, ?_, ?_, ?_⟩
  · intro loads ct st kbQuery aRes inf kbW allF allQ b h1 h2
    unfold runRound
    rw [bind_ok_cong _ h1]
    dsimp only
    rw [hprompt ct st "synthesizer" b h2]
    rfl
  · intro env e he
    unfold orchestratorRun
    rw [he]
  · rfl

theorem c10_witness :
    createAgentPrompt "topic" (.str "narrowed") "analyst" (some ⟨["q"], []⟩) =
      .error .nameError :=
  c10_theorem.1 "topic" (.str "narrowed") ⟨["q"], []⟩ rfl

end GroupChat
